import Mathlib

/-!
Routing and configuration core of `logi` (package `zaplogi`)

A shallow embedding of `zaplogi/zaplogger.go` and `zaplogi/config.go`.

* Go strings and byte slices are byte sequences: `GoString` is a list of bytes,
  compared lexicographically byte by byte, exactly as Go compares strings.
* Go functions that write through a pointer and return an `error` become
  functions returning the new value of the target together with the error
  (`none` is Go's `nil`).
* Levels are signed machine integers; `zapcore.Level(low)` is value preserving.
-/

namespace zaplogi

/-! ## Strings -/

/-- A Go `string` (or `[]byte`): a finite sequence of bytes. -/
abbrev GoString := List Nat

/-- The bytes of an ASCII literal. -/
def str (s : String) : GoString := s.toList.map Char.toNat

/-- Go's `error`: `none` is `nil`, `some msg` carries the message. -/
abbrev error := Option GoString

/-! ## `sort.Strings` and `sort.SearchStrings` (Go standard library) -/

/-- Embeds `sort.Strings`: the slice rearranged into increasing order.  The sorted
rearrangement of a list of strings is unique, so the algorithm used does not
matter. -/
def sortStrings (a : List GoString) : List GoString :=
  a.insertionSort (fun x y => x ≤ y)

/-- The loop of `sort.Search`:
`for i < j { h := int(uint(i+j) >> 1); if !f(h) { i = h + 1 } else { j = h } }; return i`.
The first argument bounds the number of iterations; `none` means the bound was
reached with the loop still running. -/
def searchLoop (f : Nat → Bool) : Nat → Nat → Nat → Option Nat
  | 0, i, j => if i < j then none else some i
  | fuel + 1, i, j =>
    if i < j then
      let h := (i + j) / 2
      if !f h then searchLoop f fuel (h + 1) j else searchLoop f fuel i h
    else some i

/-- Embeds `sort.Search(n, f)`.  The loop is run with `n` iterations allowed, which is
always enough (`searchLoop_fuel`), so the default of `getD` is never used. -/
def Search (n : Nat) (f : Nat → Bool) : Nat :=
  (searchLoop f n 0 n).getD n

/-- Embeds `sort.SearchStrings(a, x)`: `Search(len(a), func(i) { return a[i] >= x })`. -/
def SearchStrings (a : List GoString) (x : GoString) : Nat :=
  Search a.length (fun i => decide (x ≤ a.getD i []))

/-! ## Levels, writers, descriptors -/

/-- The severity level: a signed integer, ordered as integers are.  The record
level `zapcore.Level` has the same representation. -/
abbrev Level := Int

/-- The constant `zapcore.WarnLevel` of zap. -/
def zapcore.WarnLevel : Level := 1

/-- Modelled from the spec: the declaration of the constant `InfoLevel` is
missing; it is the zero value of `Level`, the level an unspecified range falls
back to (`[info info]`). -/
def InfoLevel : Level := 0

/-- The settings of a rotating file sink (`lumberjack.Logger`, `logfeller.File`),
types of external packages: the values of its fields, by field name. -/
abbrev Settings := List (GoString × GoString)

/-- The `io.Writer` embedded in a descriptor. -/
inductive Writer where
  /-- a `*lumberjack.Logger` -/
  | lumberjackLogger (s : Settings)
  /-- a `*logfeller.File` -/
  | logfellerFile (s : Settings)
  /-- any other writer, set by hand -/
  | custom (id : Nat)
deriving DecidableEq, Repr

/-- Embeds `type LogFileType int`. -/
abbrev LogFileType := Int

/-- Embeds `NoWriter LogFileType = iota`. -/
def NoWriter : LogFileType := 0
/-- The second constant of the `iota` block. -/
def Lumberjack : LogFileType := 1
/-- The third constant of the `iota` block. -/
def Logfeller : LogFileType := 2

/-- Embeds `LogFileConfig`: `LogRange` is `[2]Level`, `Writer` the embedded `io.Writer`
(`none` is the nil interface); `Type_` is the field `Type`. -/
structure LogFileConfig where
  LoggerName : GoString
  LogRange : Level × Level
  Type_ : LogFileType
  Writer : Option Writer
deriving DecidableEq, Repr

/-- Embeds `LogConfig` (with the `RootCallerSkip` that `NewWithConfig` reads). -/
structure LogConfig where
  ConsoleLog : Bool
  RootCallerSkip : Int
  LogFileConfigs : List LogFileConfig
deriving DecidableEq, Repr

/-! ## Cores (zapcore) -/

/-- Where a core writes: the locked standard streams, or a descriptor's writer
(`zapcore.AddSync(logConf)`). -/
inductive WriteSyncer where
  | stdout
  | stderr
  | file (w : Writer)
deriving DecidableEq, Repr

/-- Embeds `zapcore.Entry`, restricted to what routing reads. -/
structure Entry where
  Level : Level
  LoggerName : GoString
  Message : GoString
deriving DecidableEq, Repr

/-- A structured context field. -/
abbrev Field := GoString × GoString

/-- Embeds `zapcore.CheckedEntry`: the cores that accepted the entry so far, each
identified by the destination it writes to; `[]` is the nil pointer. -/
abbrev CheckedEntry := List WriteSyncer

/-- The cores the program builds.  `ioCore` is what `zapcore.NewCore(enc, ws, enab)`
returns (`colour` tells the two encoders apart), `exclusiveCore` is the
repository's wrapper (`incl` is its field `include`), `multiCore` and `nop` are
what `zapcore.NewTee` returns. -/
inductive Core where
  | nop
  | ioCore (colour : Bool) (out : WriteSyncer) (enab : Level → Bool) (fields : List Field)
  | exclusiveCore (loggerNames : List GoString) (incl : Bool) (inner : Core)
  | multiCore (cores : List Core)

/-- Embeds `newExclusiveCore`: sorts `loggerNames` in place and wraps `core`.  Returns
the caller's slice as the sort left it, and the new core. -/
def newExclusiveCore (loggerNames : List GoString) (incl : Bool) (core : Core) :
    List GoString × Core :=
  let sorted := sortStrings loggerNames
  (sorted, Core.exclusiveCore sorted incl core)

mutual
/-- The method `Check` of each core.  `ioCore.Check` adds the core when its level enabler
accepts the entry's level; `exclusiveCore.Check` is the repository's; a
`multiCore` asks its cores in order. -/
def Core.Check : Core → Entry → CheckedEntry → CheckedEntry
  | .nop, _, ce => ce
  | .ioCore _ out enab _, ent, ce => if enab ent.Level then ce ++ [out] else ce
  | .exclusiveCore loggerNames incl inner, ent, ce =>
    let i := SearchStrings loggerNames ent.LoggerName
    let checkCond := decide (i < loggerNames.length) && (loggerNames.getD i [] == ent.LoggerName)
    let checkCond := if !incl then !checkCond else checkCond
    if checkCond then inner.Check ent ce else ce
  | .multiCore cores, ent, ce => Core.checkAll cores ent ce
/-- The loop of `multiCore.Check`. -/
def Core.checkAll : List Core → Entry → CheckedEntry → CheckedEntry
  | [], _, ce => ce
  | c :: cs, ent, ce => Core.checkAll cs ent (c.Check ent ce)
end

/-- Embeds `zapcore.NewTee`. -/
def NewTee (cores : List Core) : Core :=
  match cores with
  | [] => Core.nop
  | [c] => c
  | _ => Core.multiCore cores

/-- The cores a fan-out offers every entry to. -/
def Core.children : Core → List Core
  | .nop => []
  | .multiCore cores => cores
  | c => [c]

/-! ## `NewWithConfig` -/

/-- Embeds `Logger`: the sugared zap logger it wraps, as far as routing goes: the
fan-out, the logger name, the accumulated context and the options. -/
structure Logger where
  core : Core
  name : GoString
  context : List Field
  callerSkip : Int
  development : Bool

/-- First loop of `NewWithConfig`: the names of all descriptors that have one. -/
def loggerNamesToExclude : List LogFileConfig → List GoString
  | [] => []
  | logConf :: rest =>
    if logConf.LoggerName ≠ [] then logConf.LoggerName :: loggerNamesToExclude rest
    else loggerNamesToExclude rest

/-- The level gate `lvlFn` of a descriptor:
`lvl >= zapcore.Level(low) && lvl <= zapcore.Level(high)`. -/
def lvlFn (low high : Level) : Level → Bool :=
  fun lvl => decide (lvl ≥ low) && decide (lvl ≤ high)

/-- The child core of a descriptor whose writer is `w` (the body of
`if logConf.Writer != nil`), with the slice `names` (`loggerNamesToExclude`) as
the call leaves it. -/
def childCore (names : List GoString) (logConf : LogFileConfig) (w : Writer) :
    List GoString × Core :=
  let inner := Core.ioCore false (WriteSyncer.file w) (lvlFn logConf.LogRange.1 logConf.LogRange.2) []
  if logConf.LoggerName ≠ [] then
    (names, (newExclusiveCore [logConf.LoggerName] true inner).2)
  else
    newExclusiveCore names false inner

/-- The text of one range error:
`fmt.Errorf("log level high (%s) is smaller than low (%s)", high.String(), low.String())`. -/
def rangeError (levelString : Level → GoString) (low high : Level) : GoString :=
  str "log level high (" ++ levelString high ++ str ") is smaller than low (" ++
    levelString low ++ str ")"

/-- The variables the second loop of `NewWithConfig` updates. -/
structure BuildState where
  names : List GoString
  Errs : List GoString
  childCores : List Core

/-- One iteration of the second loop of `NewWithConfig`. -/
def buildStep (levelString : Level → GoString) (st : BuildState) (logConf : LogFileConfig) :
    BuildState :=
  let low := logConf.LogRange.1
  let high := logConf.LogRange.2
  if low > high then
    { st with Errs := st.Errs ++ [rangeError levelString low high] }
  else
    match logConf.Writer with
    | some w =>
      let r := childCore st.names logConf w
      { st with names := r.1, childCores := st.childCores ++ [r.2] }
    | none => st

/-- The second loop of `NewWithConfig`. -/
def buildLoop (levelString : Level → GoString) : BuildState → List LogFileConfig → BuildState
  | st, [] => st
  | st, logConf :: rest => buildLoop levelString (buildStep levelString st logConf) rest

/-- The two console cores: standard output below `Warn`, standard error from
`Warn` on. -/
def consoleCores : List Core :=
  [Core.ioCore true WriteSyncer.stdout (fun lvl => decide (lvl < zapcore.WarnLevel)) [],
   Core.ioCore true WriteSyncer.stderr (fun lvl => decide (lvl ≥ zapcore.WarnLevel)) []]

/-- The text of the aggregate error. -/
def errorText : List GoString → GoString
  | [] => []
  | e :: rest => str "[" ++ e ++ str "]" ++ errorText rest

/-- Embeds `NewWithConfig`.  `levelString` is the method `Level.String`, declared
outside the files embedded here.  The deferred `Sync` only writes to the sinks
and is left out. -/
def NewWithConfig (levelString : Level → GoString) (c : LogConfig) : Option Logger × error :=
  let childCores := if c.ConsoleLog then consoleCores else []
  let st := buildLoop levelString
    { names := loggerNamesToExclude c.LogFileConfigs, Errs := [], childCores := childCores }
    c.LogFileConfigs
  if st.Errs.length > 0 then
    (none, some (str "logger: errors initialising logs," ++ errorText st.Errs))
  else
    (some { core := NewTee st.childCores, name := [], context := [],
            callerSkip := c.RootCallerSkip, development := c.ConsoleLog }, none)

/-! ## `LogFileType` as text (`config.go`) -/

/-- The ASCII branch of `bytes.ToLower`: `if 'A' <= c && c <= 'Z' { c += 'a' - 'A' }`. -/
def lowerByte (c : Nat) : Nat :=
  if 65 ≤ c ∧ c ≤ 90 then c + 32 else c

/-- Embeds `bytes.ToLower` of the Go standard library.  A text of ASCII bytes
only is lowered byte by byte (returned as it is when it has no upper-case letter); any
other text goes through `bytes.Map(unicode.ToLower, s)`, which rests on the
Unicode tables and is the parameter `mapUnicodeLower`. -/
def bytesToLower (mapUnicodeLower : GoString → GoString) (s : GoString) : GoString :=
  if s.all (fun c => decide (c < 128)) then
    if s.any (fun c => decide (65 ≤ c ∧ c ≤ 90)) then s.map lowerByte else s
  else mapUnicodeLower s

/-- Embeds `(*LogFileType).unmarshalText`: the new value of `*t` and the result. -/
def unmarshalText (t : LogFileType) (text : GoString) : LogFileType × Bool :=
  if text = str "Lumberjack" ∨ text = str "lumberjack" ∨ text = str "lj" then (Lumberjack, true)
  else if text = str "Logfeller" ∨ text = str "logfeller" ∨ text = str "lf" then (Logfeller, true)
  else if text = [] then (NoWriter, true)
  else (t, false)

/-- The lower-case hexadecimal digit of a number below 16. -/
def hexDigit (n : Nat) : Nat := if n < 10 then 48 + n else 87 + n

/-- The escape `strconv.Quote` writes for one byte: a backslash before the
double quote and the backslash, printable ASCII as it is, the short escapes of
the seven control characters, `\x` and two hexadecimal digits for the other
control bytes.  Bytes outside ASCII are copied, as `strconv.Quote` does with
the bytes of printable runes; its escapes for other runes rest on the Unicode
tables and are left out. -/
def quoteByte (c : Nat) : GoString :=
  if c = 34 ∨ c = 92 then [92, c]
  else if 32 ≤ c ∧ c ≤ 126 then [c]
  else if c = 7 then [92, 97]
  else if c = 8 then [92, 98]
  else if c = 12 then [92, 102]
  else if c = 10 then [92, 110]
  else if c = 13 then [92, 114]
  else if c = 9 then [92, 116]
  else if c = 11 then [92, 118]
  else if c < 32 ∨ c = 127 then [92, 120, hexDigit (c / 16), hexDigit (c % 16)]
  else [c]

/-- The verb `%q` on a text: the text between double quotes, each byte escaped
as `strconv.Quote` does. -/
def quote (s : GoString) : GoString := [34] ++ (s.map quoteByte).flatten ++ [34]

/-- Embeds `(*LogFileType).UnmarshalText`.  The target `t` is `none` for a nil
pointer; the result is the target afterwards and the error. -/
def UnmarshalText (mapUnicodeLower : GoString → GoString) (t : Option LogFileType)
    (text : GoString) : Option LogFileType × error :=
  match t with
  | none => (none, some (str "can't unmarshal a nil *LogFileType"))
  | some v =>
    let r1 := unmarshalText v text
    if !r1.2 then
      let r2 := unmarshalText r1.1 (bytesToLower mapUnicodeLower text)
      if !r2.2 then (some r2.1, some (str "unrecognised LogFileType: " ++ quote text))
      else (some r2.1, none)
    else (some r1.1, none)

/-- Embeds `LogFileType.String`. -/
def LogFileType.String (t : LogFileType) : GoString :=
  if t = Lumberjack then str "lumberjack"
  else if t = Logfeller then str "logfeller"
  else if t = NoWriter then str "noWriter"
  else str "LogFileType(" ++ str (toString t) ++ str ")"

/-- Embeds `LogFileType.MarshalText`. -/
def LogFileType.MarshalText (t : LogFileType) : GoString × error :=
  (LogFileType.String t, none)

/-! ## Decoding a descriptor (`config.go`) -/

/-- The kind-specific sub-document under `file_handler` / `file-handler`: its
keys and values. -/
abbrev HandlerDoc := List (GoString × GoString)

/-- An element of an array of a document. -/
inductive Item where
  /-- the literal `null` -/
  | null
  /-- a string -/
  | string (s : GoString)
  /-- a number or a boolean, with its text -/
  | other (src : GoString)
  /-- an array or an object -/
  | nested
deriving DecidableEq, Repr

/-- The value at a key of a document. -/
inductive Raw where
  /-- the literal `null` -/
  | null
  /-- a string -/
  | string (s : GoString)
  /-- a number or a boolean, with its text -/
  | other (src : GoString)
  /-- an array -/
  | array (items : List Item)
  /-- an object, with its keys and values -/
  | object (fields : HandlerDoc)
deriving DecidableEq, Repr

/-- A descriptor document after parsing, the same for JSON (underscored keys)
and YAML (hyphenated keys): each key is absent (`none`) or carries its value,
not yet decoded. -/
structure Document where
  logger_name : Option Raw
  log_range : Option Raw
  type_ : Option Raw
  file_handler : Option Raw
deriving DecidableEq, Repr

/-- What the decoding rests on outside the files embedded here: `Level.String`,
the Unicode branch of `bytes.ToLower`, the decoding of a sub-document into the
settings of each sink (`none` when the sub-document does not fit the sink), the
decoding of one element of `log_range` into a `Level` by each library (`none`
when it fails), and the text of the error a library reports for a document. -/
structure External where
  levelString : Level → GoString
  mapUnicodeLower : GoString → GoString
  decodeLumberjack : HandlerDoc → Option Settings
  decodeLogfeller : HandlerDoc → Option Settings
  levelJSON : Item → Option Level
  levelYAML : Item → Option Level
  jsonErrorText : Document → GoString
  yamlErrorText : Document → GoString

/-- Embeds `logFileConfigJSON`; `FileHandler` is the raw sub-document, `none`
when the key is absent (a nil `json.RawMessage`); a `null` at the key is kept
as the raw message `null`. -/
structure logFileConfigJSON where
  LoggerName : GoString
  LogRange : Level × Level
  Type_ : LogFileType
  FileHandler : Option Raw
deriving DecidableEq, Repr

/-- Embeds `logFileConfigYAMLBase`. -/
structure logFileConfigYAMLBase where
  LoggerName : GoString
  LogRange : Level × Level
  Type_ : LogFileType
deriving DecidableEq, Repr

/-- What `encoding/json` stores into a zero `string` field: an absent key and
`null` leave it, a string sets it, any other value is an error (`none`). -/
def jsonString (v : Option Raw) : Option GoString :=
  match v with
  | none => some []
  | some Raw.null => some []
  | some (Raw.string s) => some s
  | some _ => none

/-- What `yaml.v2` stores into a zero `string` field: an absent key and `null`
leave it, a string sets it, another scalar sets its text, an array or an
object is an error (`none`). -/
def yamlString (v : Option Raw) : Option GoString :=
  match v with
  | none => some []
  | some Raw.null => some []
  | some (Raw.string s) => some s
  | some (Raw.other src) => some src
  | some _ => none

/-- What `encoding/json` stores into a zero `[2]Level`: an absent key and `null`
leave it; of an array the first two elements are decoded, further ones are
dropped and missing ones stay zero; any other value is an error (`none`). -/
def jsonRange (ext : External) (v : Option Raw) : Option (Level × Level) :=
  match v with
  | none => some (0, 0)
  | some Raw.null => some (0, 0)
  | some (Raw.array []) => some (0, 0)
  | some (Raw.array [a]) =>
    match ext.levelJSON a with
    | some x => some (x, 0)
    | none => none
  | some (Raw.array (a :: b :: _)) =>
    match ext.levelJSON a, ext.levelJSON b with
    | some x, some y => some (x, y)
    | _, _ => none
  | some _ => none

/-- What `yaml.v2` stores into a zero `[2]Level`: an absent key and `null` leave
it; an array must have two elements, which are decoded; any other value is an
error (`none`). -/
def yamlRange (ext : External) (v : Option Raw) : Option (Level × Level) :=
  match v with
  | none => some (0, 0)
  | some Raw.null => some (0, 0)
  | some (Raw.array [a, b]) =>
    match ext.levelYAML a, ext.levelYAML b with
    | some x, some y => some (x, y)
    | _, _ => none
  | some _ => none

/-- The kind a text decodes to through `UnmarshalText` on a zero `LogFileType`,
`none` when `UnmarshalText` returns an error. -/
def textType (ext : External) (text : GoString) : Option LogFileType :=
  let r := UnmarshalText ext.mapUnicodeLower (some NoWriter) text
  match r.2 with
  | none => r.1
  | some _ => none

/-- What `encoding/json` stores into a zero `LogFileType`: an absent key and
`null` leave it, a string goes through `UnmarshalText`, any other value is an
error (`none`). -/
def jsonType (ext : External) (v : Option Raw) : Option LogFileType :=
  match v with
  | none => some NoWriter
  | some Raw.null => some NoWriter
  | some (Raw.string text) => textType ext text
  | some _ => none

/-- What `yaml.v2` stores into a zero `LogFileType`: an absent key and `null`
leave it, the text of any scalar goes through `UnmarshalText`, an array or an
object is an error (`none`). -/
def yamlType (ext : External) (v : Option Raw) : Option LogFileType :=
  match v with
  | none => some NoWriter
  | some Raw.null => some NoWriter
  | some (Raw.string text) => textType ext text
  | some (Raw.other src) => textType ext src
  | some _ => none

/-- Embeds `json.Unmarshal(data, &lfc)` into a zero `logFileConfigJSON`.  When a
field fails to decode the library's error is returned (the struct is not read
by the caller then). -/
def jsonUnmarshalBase (ext : External) (doc : Document) : logFileConfigJSON × error :=
  match jsonString doc.logger_name, jsonRange ext doc.log_range, jsonType ext doc.type_ with
  | some name, some range, some t =>
    ({ LoggerName := name, LogRange := range, Type_ := t, FileHandler := doc.file_handler },
      none)
  | _, _, _ =>
    ({ LoggerName := [], LogRange := (0, 0), Type_ := NoWriter, FileHandler := none },
      some (ext.jsonErrorText doc))

/-- Embeds `unmarshal(&lfc)` into a zero `logFileConfigYAMLBase`. -/
def yamlUnmarshalBase (ext : External) (doc : Document) : logFileConfigYAMLBase × error :=
  match yamlString doc.logger_name, yamlRange ext doc.log_range, yamlType ext doc.type_ with
  | some name, some range, some t =>
    ({ LoggerName := name, LogRange := range, Type_ := t }, none)
  | _, _, _ =>
    ({ LoggerName := [], LogRange := (0, 0), Type_ := NoWriter }, some (ext.yamlErrorText doc))

/-- Embeds `json.Unmarshal(lfc.FileHandler, &c.Writer)` after `c.Writer` was set
to a pointer to a zero sink: the settings of the sink `c.Writer` points to
afterwards (`none` when `c.Writer` is nil) and the error.  An empty raw message
is not a JSON document and is an error; the raw message `null` resets the
interface `c.Writer` to nil without error; an object is decoded into the sink;
any other value is an error. -/
def jsonUnmarshalHandler (decode : HandlerDoc → Option Settings) (errText : GoString)
    (raw : Option Raw) : Option Settings × error :=
  match raw with
  | none => (some [], some (str "unexpected end of JSON input"))
  | some Raw.null => (none, none)
  | some (Raw.object h) =>
    match decode h with
    | some s => (some s, none)
    | none => (some [], some errText)
  | some _ => (some [], some errText)

/-- Embeds `unmarshal(&lj)` / `unmarshal(&lf)` into a zero struct with the one
field `file-handler`: an absent key and `null` leave zero settings, an object
is decoded, any other value is an error. -/
def yamlUnmarshalHandler (decode : HandlerDoc → Option Settings) (errText : GoString)
    (doc : Document) : Settings × error :=
  match doc.file_handler with
  | none => ([], none)
  | some Raw.null => ([], none)
  | some (Raw.object h) =>
    match decode h with
    | some s => (s, none)
    | none => ([], some errText)
  | some _ => ([], some errText)

/-- The error of a writer that is already set. -/
def writerAlreadySet (ext : External) (c : LogFileConfig) : GoString :=
  str "writer was already set for log file config; loggername=" ++ quote c.LoggerName ++
    str ", logrange=[" ++ ext.levelString c.LogRange.1 ++ str " " ++
    ext.levelString c.LogRange.2 ++ str "], type=" ++ quote (LogFileType.String c.Type_)

/-- Embeds `(*LogFileConfig).UnmarshalJSON`: the descriptor afterwards and the error. -/
def UnmarshalJSON (ext : External) (c : LogFileConfig) (doc : Document) :
    LogFileConfig × error :=
  let r := jsonUnmarshalBase ext doc
  let lfc := r.1
  if r.2 ≠ none then (c, r.2)
  else
    let c := { c with LoggerName := lfc.LoggerName, LogRange := lfc.LogRange, Type_ := lfc.Type_ }
    if c.Type_ = NoWriter then (c, none)
    else if c.Type_ = Lumberjack then
      if c.Writer ≠ none then (c, some (writerAlreadySet ext c))
      else
        let h := jsonUnmarshalHandler ext.decodeLumberjack (ext.jsonErrorText doc)
          lfc.FileHandler
        ({ c with Writer := h.1.map Writer.lumberjackLogger }, h.2)
    else if c.Type_ = Logfeller then
      if c.Writer ≠ none then (c, some (writerAlreadySet ext c))
      else
        let h := jsonUnmarshalHandler ext.decodeLogfeller (ext.jsonErrorText doc)
          lfc.FileHandler
        ({ c with Writer := h.1.map Writer.logfellerFile }, h.2)
    else (c, some (str "invalid type: " ++ quote (LogFileType.String c.Type_)))

/-- Embeds `(*LogFileConfig).UnmarshalYAML`: the descriptor afterwards and the error. -/
def UnmarshalYAML (ext : External) (c : LogFileConfig) (doc : Document) :
    LogFileConfig × error :=
  let r := yamlUnmarshalBase ext doc
  let lfc := r.1
  if r.2 ≠ none then (c, r.2)
  else
    let c := { c with LoggerName := lfc.LoggerName, LogRange := lfc.LogRange, Type_ := lfc.Type_ }
    if c.Type_ = NoWriter then (c, none)
    else if c.Type_ = Lumberjack then
      if c.Writer ≠ none then (c, some (writerAlreadySet ext c))
      else
        let lj := yamlUnmarshalHandler ext.decodeLumberjack (ext.yamlErrorText doc) doc
        if lj.2 ≠ none then (c, lj.2)
        else ({ c with Writer := some (Writer.lumberjackLogger lj.1) }, none)
    else if c.Type_ = Logfeller then
      if c.Writer ≠ none then (c, some (writerAlreadySet ext c))
      else
        let lf := yamlUnmarshalHandler ext.decodeLogfeller (ext.yamlErrorText doc) doc
        if lf.2 ≠ none then (c, lf.2)
        else ({ c with Writer := some (Writer.logfellerFile lf.1) }, none)
    else (c, some (str "invalid type: " ++ quote (LogFileType.String c.Type_)))

/-! ## `exclusiveCore.With` and the derivation of loggers (`zaplogger.go`) -/

mutual
/-- The method `With` of each core.  `ioCore.With` adds the fields to a clone,
`exclusiveCore.With` is the repository's, a `multiCore` derives each of its
cores, the no-op core returns itself. -/
def Core.With : Core → List Field → Core
  | .nop, _ => .nop
  | .ioCore colour out enab fields, fs => .ioCore colour out enab (fields ++ fs)
  | .exclusiveCore loggerNames incl inner, fs =>
    .exclusiveCore loggerNames incl (inner.With fs)
  | .multiCore cores, fs => .multiCore (Core.withAll cores fs)
/-- The loop of `multiCore.With`. -/
def Core.withAll : List Core → List Field → List Core
  | [], _ => []
  | c :: cs, fs => c.With fs :: Core.withAll cs fs
end

/-- The name-filter decision of `exclusiveCore.Check`: the value of `checkCond`
when the inner core is asked. -/
def checkCond (loggerNames : List GoString) (incl : Bool) (ent : Entry) : Bool :=
  let i := SearchStrings loggerNames ent.LoggerName
  let checkCond := decide (i < loggerNames.length) && (loggerNames.getD i [] == ent.LoggerName)
  if !incl then !checkCond else checkCond

/-- A value passed as `interface{}`: a string, or anything else by its rendering. -/
inductive Any where
  | string (s : GoString)
  | other (repr : GoString)
deriving DecidableEq, Repr

/-- The formatting functions of the Go standard library the logger calls, and
zap's pairing of keys and values into fields. -/
structure Fmt where
  Sprintf : GoString → List Any → GoString
  Sprintln : List Any → GoString
  sweetenFields : List Any → List Field

/-- Embeds `(*zap.Logger).Named` under the sugared logger: the empty name returns
the logger, otherwise a clone whose name is extended, joined by a dot. -/
def zapNamed (l : Logger) (s : GoString) : Logger :=
  if s = [] then l
  else { l with name := if l.name = [] then s else l.name ++ str "." ++ s }

/-- Embeds `(*zap.Logger).With` under the sugared logger: without fields the logger,
otherwise a clone whose core is derived with the fields. -/
def zapWith (l : Logger) (fields : List Field) : Logger :=
  if fields = [] then l
  else { l with core := l.core.With fields, context := l.context ++ fields }

/-- The loggers allocated so far; a non-nil `*Logger` is a position in the store. -/
abbrev Store := List Logger

/-- Embeds `(*Logger).With`: `&Logger{zaplog: l.zaplog.With(args...)}`.  The result
is the store afterwards and the new pointer; `none` is the run-time panic of
a receiver that points to no logger. -/
def Logger.With (fmt : Fmt) (h : Store) (l : Nat) (args : List Any) : Option (Store × Nat) :=
  match h[l]? with
  | none => none
  | some lg => some (h ++ [zapWith lg (fmt.sweetenFields args)], h.length)

/-- Embeds `(*Logger).Named`: `&Logger{zaplog: l.zaplog.Named(loggerName)}`. -/
def Logger.Named (h : Store) (l : Nat) (loggerName : GoString) : Option (Store × Nat) :=
  match h[l]? with
  | none => none
  | some lg => some (h ++ [zapNamed lg loggerName], h.length)

/-! ## Emission (`zaplogger.go`) -/

/-- How a call ends, with the records written to each destination before. -/
inductive Outcome where
  /-- the call returns -/
  | returned (written : List (WriteSyncer × Entry))
  /-- the call panics with the given message -/
  | panicked (written : List (WriteSyncer × Entry)) (message : GoString)
  /-- the process exits with the given status after the given text went to
  standard error -/
  | exited (written : List (WriteSyncer × Entry)) (stderr : GoString) (status : Int)
deriving DecidableEq, Repr

/-- What the sugared logger writes for a message at a level: the entry carries
the name of the logger and goes to every destination whose core accepts it. -/
def zapLog (l : Logger) (lvl : Level) (msg : GoString) : List (WriteSyncer × Entry) :=
  let ent : Entry := { Level := lvl, LoggerName := l.name, Message := msg }
  (l.core.Check ent []).map (fun out => (out, ent))

/-- Embeds `(*Logger).Debug`; the receiver is `none` for a nil pointer.  The
level is `zapcore.DebugLevel`. -/
def Logger.Debug (l : Option Logger) (msg : GoString) (_keysAndValues : List Any) : Outcome :=
  match l with
  | none => Outcome.returned []
  | some lg => Outcome.returned (zapLog lg (-1) msg)

/-- Embeds `(*Logger).Debugf`. -/
def Logger.Debugf (fmt : Fmt) (l : Option Logger) (template : GoString) (args : List Any) :
    Outcome :=
  match l with
  | none => Outcome.returned []
  | some lg => Outcome.returned (zapLog lg (-1) (fmt.Sprintf template args))

/-- Embeds `(*Logger).Info`, at `zapcore.InfoLevel`. -/
def Logger.Info (l : Option Logger) (msg : GoString) (_keysAndValues : List Any) : Outcome :=
  match l with
  | none => Outcome.returned []
  | some lg => Outcome.returned (zapLog lg 0 msg)

/-- Embeds `(*Logger).Infof`. -/
def Logger.Infof (fmt : Fmt) (l : Option Logger) (template : GoString) (args : List Any) :
    Outcome :=
  match l with
  | none => Outcome.returned []
  | some lg => Outcome.returned (zapLog lg 0 (fmt.Sprintf template args))

/-- Embeds `(*Logger).Warn`, at `zapcore.WarnLevel`. -/
def Logger.Warn (l : Option Logger) (msg : GoString) (_keysAndValues : List Any) : Outcome :=
  match l with
  | none => Outcome.returned []
  | some lg => Outcome.returned (zapLog lg zapcore.WarnLevel msg)

/-- Embeds `(*Logger).Warnf`. -/
def Logger.Warnf (fmt : Fmt) (l : Option Logger) (template : GoString) (args : List Any) :
    Outcome :=
  match l with
  | none => Outcome.returned []
  | some lg => Outcome.returned (zapLog lg zapcore.WarnLevel (fmt.Sprintf template args))

/-- Embeds `(*Logger).Error`, at `zapcore.ErrorLevel`. -/
def Logger.Error (l : Option Logger) (msg : GoString) (_keysAndValues : List Any) : Outcome :=
  match l with
  | none => Outcome.returned []
  | some lg => Outcome.returned (zapLog lg 2 msg)

/-- Embeds `(*Logger).Errorf`. -/
def Logger.Errorf (fmt : Fmt) (l : Option Logger) (template : GoString) (args : List Any) :
    Outcome :=
  match l with
  | none => Outcome.returned []
  | some lg => Outcome.returned (zapLog lg 2 (fmt.Sprintf template args))

/-- Embeds `(*Logger).Panicf`: on a nil receiver
`panic(errors.New(fmt.Sprintf(template, args...)))`, otherwise zap writes at
`zapcore.PanicLevel` and panics with the message. -/
def Logger.Panicf (fmt : Fmt) (l : Option Logger) (template : GoString) (args : List Any) :
    Outcome :=
  match l with
  | none => Outcome.panicked [] (fmt.Sprintf template args)
  | some lg =>
    Outcome.panicked (zapLog lg 4 (fmt.Sprintf template args)) (fmt.Sprintf template args)

/-- Embeds `(*Logger).Panic`: on a nil receiver
`kvs := append([]interface{}{msg}, keysAndValues...)` and
`panic(errors.New(fmt.Sprintln(kvs...)))`. -/
def Logger.Panic (fmt : Fmt) (l : Option Logger) (msg : GoString) (keysAndValues : List Any) :
    Outcome :=
  match l with
  | none =>
    let kvs := [Any.string msg] ++ keysAndValues
    Outcome.panicked [] (fmt.Sprintln kvs)
  | some lg => Outcome.panicked (zapLog lg 4 msg) msg

/-- Embeds `(*Logger).Fatal`: on a nil receiver the arguments go to standard
error and the process exits with status 1. -/
def Logger.Fatal (fmt : Fmt) (l : Option Logger) (msg : GoString) (keysAndValues : List Any) :
    Outcome :=
  match l with
  | none =>
    let kvs := [Any.string msg] ++ keysAndValues
    Outcome.exited [] (fmt.Sprintln kvs) 1
  | some lg => Outcome.exited (zapLog lg 5 msg) [] 1

/-- Embeds `(*Logger).Fatalf`. -/
def Logger.Fatalf (fmt : Fmt) (l : Option Logger) (template : GoString) (args : List Any) :
    Outcome :=
  match l with
  | none => Outcome.exited [] (fmt.Sprintf template args) 1
  | some lg => Outcome.exited (zapLog lg 5 (fmt.Sprintf template args)) [] 1

/-! ## The default logger (`logger.go`) -/

/-- Embeds `NewConsole`: the error of `NewWithConfig` is dropped. -/
def NewConsole (levelString : Level → GoString) : Option Logger :=
  (NewWithConfig levelString { ConsoleLog := true, RootCallerSkip := 1, LogFileConfigs := [] }).1

/-- A value of the interface `iface.Logger`: a `*zaplogi.Logger` (`none` for a nil
pointer) or another implementation. -/
inductive ifaceLogger where
  | zap (l : Option Logger)
  | other (id : Nat)

/-- The package variable `defaultLogger` of package `logi`. -/
structure logiState where
  defaultLogger : ifaceLogger

/-- The state of package `logi` after initialisation:
`var defaultLogger iface.Logger = zaplogi.NewConsole()`. -/
def logiInit (levelString : Level → GoString) : logiState :=
  { defaultLogger := ifaceLogger.zap (NewConsole levelString) }

/-- Embeds `logi.SetDefault`: `defaultLogger = l`. -/
def SetDefault (l : ifaceLogger) (_s : logiState) : logiState :=
  { defaultLogger := l }

/-- Embeds `logi.Get`: `return defaultLogger`. -/
def Get (s : logiState) : ifaceLogger := s.defaultLogger

/-! ## `NewDefault` (`zaplogger.go`) -/

/-- The `logfeller.File` literal of `NewDefault` for one file name.  The path
comes from `filepath.Join` and the number of backups is rendered by `itoa`,
both given from outside. -/
def defaultFile (join : GoString → GoString → GoString) (itoa : Int → GoString)
    (logDir : GoString) (name : String) (backups : Int) : Writer :=
  Writer.logfellerFile
    [(str "Filename", join logDir (str name)), (str "When", str "d"),
     (str "RotationSchedule", str "0000:00"), (str "Backups", itoa backups),
     (str "UseLocal", str "true")]

/-- The configuration literal `NewDefault` passes to `NewWithConfig`.  The
constants `WarnLevel` and `MaxLevel` are declared outside the files embedded
here and are given as arguments. -/
def newDefaultConfig (WarnLevel MaxLevel : Level) (join : GoString → GoString → GoString)
    (itoa : Int → GoString) (logDir : GoString) (backups : Int) (logConsole : Bool) :
    LogConfig :=
  { ConsoleLog := logConsole, RootCallerSkip := 1,
    LogFileConfigs :=
      [{ LoggerName := [], LogRange := (InfoLevel, MaxLevel), Type_ := NoWriter,
         Writer := some (defaultFile join itoa logDir "info.log" backups) },
       { LoggerName := [], LogRange := (WarnLevel, MaxLevel), Type_ := NoWriter,
         Writer := some (defaultFile join itoa logDir "error.log" backups) }] }

/-- Embeds `NewDefault`: `l, _ := NewWithConfig(LogConfig{...}); return l`. -/
def NewDefault (levelString : Level → GoString) (WarnLevel MaxLevel : Level)
    (join : GoString → GoString → GoString) (itoa : Int → GoString)
    (logDir : GoString) (backups : Int) (logConsole : Bool) : Option Logger :=
  (NewWithConfig levelString
    (newDefaultConfig WarnLevel MaxLevel join itoa logDir backups logConsole)).1

/-! ## Vocabulary of the statements -/

/-- A descriptor whose range is out of order: `low > high`. -/
def badRange (logConf : LogFileConfig) : Bool :=
  decide (logConf.LogRange.1 > logConf.LogRange.2)

/-- The file core the second loop of `NewWithConfig` appends for a descriptor,
if any: none for a range out of order or a nil writer. -/
def fileCore (names : List GoString) (logConf : LogFileConfig) : Option Core :=
  if badRange logConf then none
  else logConf.Writer.map (fun w => (childCore names logConf w).2)

/-- Cores other than `nop` and `multiCore`. -/
def Core.isLeaf : Core → Bool
  | .ioCore _ _ _ _ => true
  | .exclusiveCore _ _ _ => true
  | _ => false

/-- The level enabler `stdoutPriority` of `NewWithConfig`:
`lvl < zapcore.WarnLevel`. -/
def stdoutPriority : Level → Bool := fun lvl => decide (lvl < zapcore.WarnLevel)

/-- The level enabler `stdErrPriority` of `NewWithConfig`:
`lvl >= zapcore.WarnLevel`. -/
def stdErrPriority : Level → Bool := fun lvl => decide (lvl ≥ zapcore.WarnLevel)

/-- The name filter in the words of the specification: plain membership of the
entry's logger name in the list of names, compared with the include flag. -/
def nameFilterSpec (names : List GoString) (incl : Bool) (ent : Entry) : Bool :=
  decide (ent.LoggerName ∈ names) == incl

/-- A text made only of lower-case ASCII letters. -/
def isLowerASCII (s : GoString) : Bool :=
  s.all (fun c => decide (97 ≤ c ∧ c ≤ 122))

/-! ## Example values (the configuration of the repository's example documents) -/

/-- A rendering of levels for the examples, with zap's numbering. -/
def exampleLevelString (l : Level) : GoString :=
  if l = -1 then str "debug" else if l = 0 then str "info" else if l = 1 then str "warn"
  else if l = 2 then str "error" else if l = 4 then str "panic" else if l = 5 then str "fatal"
  else str "unknown"

/-- A `logfeller.File` writing to the named file. -/
def exampleFile (filename : String) : Writer :=
  Writer.logfellerFile [(str "filename", str filename)]

/-- The catch-all descriptor of `info.log`, levels info to fatal. -/
def infoConf : LogFileConfig :=
  { LoggerName := [], LogRange := (0, 5), Type_ := Logfeller, Writer := some (exampleFile "info.log") }

/-- The catch-all descriptor of `error.log`, levels warn to fatal. -/
def errorConf : LogFileConfig :=
  { LoggerName := [], LogRange := (1, 5), Type_ := Logfeller, Writer := some (exampleFile "error.log") }

/-- The descriptor named `db`, levels debug to fatal. -/
def dbConf : LogFileConfig :=
  { LoggerName := str "db", LogRange := (-1, 5), Type_ := Logfeller,
    Writer := some (exampleFile "db.log") }

/-- The descriptor named `data`, with the default range. -/
def dataConf : LogFileConfig :=
  { LoggerName := str "data", LogRange := (0, 0), Type_ := Logfeller,
    Writer := some (exampleFile "data.log") }

/-- The configuration of the example documents. -/
def exampleConfig : LogConfig :=
  { ConsoleLog := true, RootCallerSkip := 0,
    LogFileConfigs := [infoConf, errorConf, dbConf, dataConf] }

/-- An info record of the logger named `db`. -/
def dbEntry : Entry := { Level := 0, LoggerName := str "db", Message := str "query" }

/-- A configuration with two ranges out of order, around one that is in order. -/
def twoBadRanges : LogConfig :=
  { ConsoleLog := false, RootCallerSkip := 0,
    LogFileConfigs :=
      [{ LoggerName := [], LogRange := (5, 0), Type_ := NoWriter, Writer := none },
       infoConf,
       { LoggerName := str "db", LogRange := (1, 0), Type_ := Logfeller,
         Writer := some (exampleFile "db.log") }] }

/-- A lowering for the examples: bytes outside ASCII are left alone. -/
def exampleLower (s : GoString) : GoString := s.map lowerByte

/-- The decoding of an element of `log_range` in the examples: the names of
the levels with zap's numbering, `min` and `max` for the ends, `null` for the
zero level. -/
def exampleLevel (item : Item) : Option Level :=
  match item with
  | Item.null => some 0
  | Item.string s =>
    if s = str "debug" ∨ s = str "min" then some (-1)
    else if s = str "info" then some 0
    else if s = str "warn" then some 1
    else if s = str "error" then some 2
    else if s = str "panic" then some 4
    else if s = str "fatal" ∨ s = str "max" then some 5
    else none
  | _ => none

/-- The external parts used in the examples. -/
def exampleExternal : External :=
  { levelString := exampleLevelString, mapUnicodeLower := exampleLower,
    decodeLumberjack := some, decodeLogfeller := some,
    levelJSON := exampleLevel, levelYAML := exampleLevel,
    jsonErrorText := fun _ => str "json: cannot unmarshal",
    yamlErrorText := fun _ => str "yaml: unmarshal errors" }

/-- The empty `LogFileConfig` a decoder starts from. -/
def emptyLogFileConfig : LogFileConfig :=
  { LoggerName := [], LogRange := (0, 0), Type_ := NoWriter, Writer := none }

/-- The sub-document of the example descriptors, for the named file. -/
def exampleHandler (filename : String) : HandlerDoc :=
  [(str "filename", str filename), (str "when", str "d"),
   (str "rotation_schedule", str "0000:00"), (str "use_local", str "true"),
   (str "backups", str "30")]

/-- The array of two level names. -/
def exampleRange (low high : String) : Raw :=
  Raw.array [Item.string (str low), Item.string (str high)]

/-- The first example descriptor: range info to fatal, type `lf`. -/
def infoDoc : Document :=
  { logger_name := none, log_range := some (exampleRange "info" "fatal"),
    type_ := some (Raw.string (str "lf")),
    file_handler := some (Raw.object (exampleHandler "info.log")) }

/-- The second example descriptor: range warn to max, type `logfeller`. -/
def errorDoc : Document :=
  { logger_name := none, log_range := some (exampleRange "warn" "max"),
    type_ := some (Raw.string (str "logfeller")),
    file_handler := some (Raw.object (exampleHandler "error.log")) }

/-- The third example descriptor: logger `db`, type `Logfeller`. -/
def dbDoc : Document :=
  { logger_name := some (Raw.string (str "db")),
    log_range := some (exampleRange "debug" "fatal"),
    type_ := some (Raw.string (str "Logfeller")),
    file_handler := some (Raw.object (exampleHandler "db.log")) }

/-- The fourth example descriptor: logger `data`, no range, type `lf`. -/
def dataDoc : Document :=
  { logger_name := some (Raw.string (str "data")), log_range := none,
    type_ := some (Raw.string (str "lf")),
    file_handler := some (Raw.object (exampleHandler "data.log")) }

/-- A descriptor of type `lf` without the `file_handler` key. -/
def noHandlerDoc : Document :=
  { logger_name := none, log_range := none, type_ := some (Raw.string (str "lf")),
    file_handler := none }

/-- A descriptor of type `lf` whose `file_handler` is `null`. -/
def nullHandlerDoc : Document :=
  { logger_name := none, log_range := none, type_ := some (Raw.string (str "lf")),
    file_handler := some Raw.null }

/-- A descriptor without a type: its writer is to be set by hand. -/
def noTypeDoc : Document :=
  { logger_name := some (Raw.string (str "audit")),
    log_range := some (exampleRange "info" "fatal"), type_ := none, file_handler := none }

/-- A descriptor without a type whose logger name is the number 5. -/
def badNameDoc : Document :=
  { logger_name := some (Raw.other (str "5")), log_range := none, type_ := none,
    file_handler := none }

/-- A descriptor of type `lf` whose range holds an unknown level name. -/
def badLevelDoc : Document :=
  { logger_name := none, log_range := some (exampleRange "info" "loud"),
    type_ := some (Raw.string (str "lf")),
    file_handler := some (Raw.object (exampleHandler "info.log")) }

/-- A descriptor whose writer was set by hand. -/
def presetConf : LogFileConfig :=
  { LoggerName := [], LogRange := (0, 0), Type_ := NoWriter, Writer := some (Writer.custom 1) }

/-- A formatting for the examples: the template followed by the arguments. -/
def exampleFmt : Fmt :=
  { Sprintf := fun template _ => template,
    Sprintln := fun args => (args.map (fun a => match a with
      | Any.string t => t
      | Any.other r => r)).flatten ++ [10],
    sweetenFields := fun args => match args with
      | [Any.string k, Any.string v] => [(k, v)]
      | _ => [] }

/-- A logger without name over the two console cores. -/
def consoleLogger : Logger :=
  { core := NewTee consoleCores, name := [], context := [], callerSkip := 1,
    development := true }

/-- A configuration in which the name `audit` is carried by a descriptor without
writer only. -/
def auditConfig : LogConfig :=
  { ConsoleLog := true, RootCallerSkip := 0,
    LogFileConfigs :=
      [infoConf,
       { LoggerName := str "audit", LogRange := (0, 5), Type_ := NoWriter, Writer := none },
       dbConf] }

/-- A joining of paths for the examples: the two parts around a slash. -/
def exampleJoin (dir file : GoString) : GoString := dir ++ str "/" ++ file

/-- A rendering of numbers for the examples. -/
def exampleItoa (n : Int) : GoString := if n = 30 then str "30" else str "0"

/-! ## Binary search over a sorted slice -/

/-- The loop of `sort.Search` ends within `j - i` iterations, for every `f`. -/
theorem searchLoop_fuel (f : Nat → Bool) :
    ∀ (fuel i j : Nat), j - i ≤ fuel → ∃ r, searchLoop f fuel i j = some r := by
  intro fuel
  induction fuel with
  | zero =>
    intro i j hf
    exact ⟨i, by simp [searchLoop]; omega⟩
  | succ fuel ih =>
    intro i j hf
    by_cases hlt : i < j
    · cases hfh : f ((i + j) / 2) with
      | false =>
        obtain ⟨r, hr⟩ := ih ((i + j) / 2 + 1) j (by omega)
        exact ⟨r, by simp [searchLoop, hlt, hfh, hr]⟩
      | true =>
        obtain ⟨r, hr⟩ := ih i ((i + j) / 2) (by omega)
        exact ⟨r, by simp [searchLoop, hlt, hfh, hr]⟩
    · exact ⟨i, by simp [searchLoop, hlt]⟩

/-- On a predicate that is monotone below `n`, the loop returns the boundary:
`f` is false before the result and true from it on. -/
theorem searchLoop_spec (f : Nat → Bool) (n : Nat)
    (hmono : ∀ a b, a ≤ b → b < n → f a = true → f b = true) :
    ∀ (fuel i j : Nat), j - i ≤ fuel → i ≤ j → j ≤ n →
      (∀ k, k < i → f k = false) → (∀ k, j ≤ k → k < n → f k = true) →
      ∃ r, searchLoop f fuel i j = some r ∧ r ≤ n ∧
        (∀ k, k < r → f k = false) ∧ (∀ k, r ≤ k → k < n → f k = true) := by
  intro fuel
  induction fuel with
  | zero =>
    intro i j hf hij hjn hlo hhi
    have hEq : i = j := by omega
    subst hEq
    exact ⟨i, by simp [searchLoop], hjn, hlo, hhi⟩
  | succ fuel ih =>
    intro i j hf hij hjn hlo hhi
    by_cases hlt : i < j
    · have hh1 : i ≤ (i + j) / 2 := by omega
      have hh2 : (i + j) / 2 < j := by omega
      cases hfh : f ((i + j) / 2) with
      | false =>
        have hlo2 : ∀ k, k < (i + j) / 2 + 1 → f k = false := by
          intro k hk
          cases hfk : f k with
          | false => rfl
          | true =>
            have hc := hmono k ((i + j) / 2) (by omega) (by omega) hfk
            rw [hfh] at hc
            exact absurd hc (by decide)
        obtain ⟨r, hr, hrest⟩ := ih ((i + j) / 2 + 1) j (by omega) (by omega) hjn hlo2 hhi
        exact ⟨r, by simp [searchLoop, hlt, hfh, hr], hrest⟩
      | true =>
        have hhi2 : ∀ k, (i + j) / 2 ≤ k → k < n → f k = true :=
          fun k hk hkn => hmono _ k hk hkn hfh
        obtain ⟨r, hr, hrest⟩ := ih i ((i + j) / 2) (by omega) hh1 (by omega) hlo hhi2
        exact ⟨r, by simp [searchLoop, hlt, hfh, hr], hrest⟩
    · have hEq : i = j := by omega
      subst hEq
      exact ⟨i, by simp [searchLoop], hjn, hlo, hhi⟩

/-- Sorting with `sort.Strings` leaves a sorted slice. -/
theorem sortStrings_sorted (a : List GoString) :
    (sortStrings a).Sorted (fun x y => x ≤ y) :=
  List.sorted_insertionSort (fun x y : GoString => x ≤ y) a

/-- Sorting with `sort.Strings` keeps the elements. -/
theorem mem_sortStrings (a : List GoString) (x : GoString) : x ∈ sortStrings a ↔ x ∈ a :=
  List.mem_insertionSort (fun x y : GoString => x ≤ y)

/-- Sorting a sorted slice again changes nothing. -/
theorem sortStrings_idem (a : List GoString) : sortStrings (sortStrings a) = sortStrings a :=
  List.Sorted.insertionSort_eq (sortStrings_sorted a)

/-- On a sorted slice the test `i < len(a) && a[i] == x` at the index found by
`sort.SearchStrings` is membership of `x`. -/
theorem searchStrings_mem (a : List GoString) (x : GoString)
    (hs : a.Sorted (fun x y => x ≤ y)) :
    (decide (SearchStrings a x < a.length) && (a.getD (SearchStrings a x) [] == x))
      = decide (x ∈ a) := by
  have hmono : ∀ p q, p ≤ q → q < a.length →
      (fun i => decide (x ≤ a.getD i [])) p = true →
      (fun i => decide (x ≤ a.getD i [])) q = true := by
    intro p q hpq hq hp
    have hp' : x ≤ a.getD p [] := by simpa using hp
    have hpl : p < a.length := by omega
    have hrel := List.Sorted.rel_get_of_le hs (a := ⟨p, hpl⟩) (b := ⟨q, hq⟩) hpq
    rw [List.get_eq_getElem, List.get_eq_getElem, ← List.getD_eq_getElem a [] hpl,
      ← List.getD_eq_getElem a [] hq] at hrel
    have : x ≤ a.getD q [] := le_trans hp' hrel
    simpa using this
  obtain ⟨r, hr, hrn, hlo, hhi⟩ :=
    searchLoop_spec (fun i => decide (x ≤ a.getD i [])) a.length hmono a.length 0 a.length
      (by omega) (by omega) (by omega) (by intro k hk; omega) (by intro k hk hkn; omega)
  have hS : SearchStrings a x = r := by
    unfold SearchStrings Search
    rw [hr]
    rfl
  rw [hS]
  by_cases hmem : x ∈ a
  · obtain ⟨k, hk, hkx⟩ := List.getElem_of_mem hmem
    have hfk : decide (x ≤ a.getD k []) = true := by
      rw [List.getD_eq_getElem a [] hk, hkx]; simp
    have hrk : r ≤ k := by
      by_contra hc
      have := hlo k (by omega)
      simp only [] at this
      rw [hfk] at this
      exact absurd this (by decide)
    have hrl : r < a.length := by omega
    have h1 : x ≤ a.getD r [] := by simpa using hhi r (le_refl r) hrl
    have hrel := List.Sorted.rel_get_of_le hs (a := ⟨r, hrl⟩) (b := ⟨k, hk⟩) hrk
    rw [List.get_eq_getElem, List.get_eq_getElem, hkx, ← List.getD_eq_getElem a [] hrl] at hrel
    have hEq : a.getD r [] = x := le_antisymm hrel h1
    simpa [hrl, hmem] using hEq
  · have : ¬ (r < a.length ∧ a.getD r [] = x) := by
      rintro ⟨hrl, hEq⟩
      apply hmem
      rw [← hEq, List.getD_eq_getElem a [] hrl]
      exact List.getElem_mem _
    simp only [decide_eq_false hmem]
    by_cases hrl : r < a.length
    · have hne : a.getD r [] ≠ x := fun h => this ⟨hrl, h⟩
      simpa [hrl] using hne
    · simp [hrl]

/-! ## The name filter and the second loop -/

/-- What `exclusiveCore.Check` does on a core made by `newExclusiveCore`: the
inner core is asked iff membership of the entry's name in the list given at
construction equals `incl`. -/
theorem newExclusiveCore_Check (names : List GoString) (incl : Bool) (inner : Core)
    (ent : Entry) (ce : CheckedEntry) :
    (newExclusiveCore names incl inner).2.Check ent ce =
      if (decide (ent.LoggerName ∈ names) == incl) then inner.Check ent ce else ce := by
  have h := searchStrings_mem (sortStrings names) ent.LoggerName (sortStrings_sorted names)
  simp only [newExclusiveCore, Core.Check]
  rw [h]
  by_cases hm : ent.LoggerName ∈ names
  · have hm' : ent.LoggerName ∈ sortStrings names := (mem_sortStrings names _).2 hm
    cases incl <;> simp [hm, hm']
  · have hm' : ¬ ent.LoggerName ∈ sortStrings names := fun h => hm ((mem_sortStrings names _).1 h)
    cases incl <;> simp [hm, hm']

/-- The child core depends on the exclusion slice only through its sorted form. -/
theorem childCore_congr (n1 n2 : List GoString) (d : LogFileConfig) (w : Writer)
    (h : sortStrings n1 = sortStrings n2) :
    (childCore n1 d w).2 = (childCore n2 d w).2 ∧
      sortStrings (childCore n1 d w).1 = sortStrings n2 := by
  unfold childCore
  by_cases hn : d.LoggerName ≠ []
  · rw [if_pos hn, if_pos hn]
    exact ⟨rfl, h⟩
  · rw [if_neg hn, if_neg hn]
    simp only [newExclusiveCore]
    rw [h]
    exact ⟨rfl, sortStrings_idem n2⟩

/-- The second loop of `NewWithConfig`: one error per range out of order, one
core per other descriptor with a writer, both in configuration order. -/
theorem buildLoop_spec (levelString : Level → GoString) (names0 : List GoString) :
    ∀ (ds : List LogFileConfig) (st : BuildState),
      sortStrings st.names = sortStrings names0 →
      (buildLoop levelString st ds).Errs =
          st.Errs ++ (ds.filter badRange).map
            (fun d => rangeError levelString d.LogRange.1 d.LogRange.2) ∧
        (buildLoop levelString st ds).childCores =
          st.childCores ++ ds.filterMap (fileCore names0) ∧
        sortStrings (buildLoop levelString st ds).names = sortStrings names0 := by
  intro ds
  induction ds with
  | nil => intro st h; simp [buildLoop, h]
  | cons d rest ih =>
    intro st h
    simp only [buildLoop]
    by_cases hb : d.LogRange.1 > d.LogRange.2
    · have hb' : badRange d = true := by simp [badRange, hb]
      have hstep : buildStep levelString st d =
          { st with Errs := st.Errs ++ [rangeError levelString d.LogRange.1 d.LogRange.2] } := by
        simp [buildStep, hb]
      rw [hstep]
      obtain ⟨h1, h2, h3⟩ := ih
        { st with Errs := st.Errs ++ [rangeError levelString d.LogRange.1 d.LogRange.2] } h
      refine ⟨?_, ?_, h3⟩
      · rw [h1]; simp [List.filter_cons, hb']
      · rw [h2]; simp [List.filterMap_cons, fileCore, hb']
    · have hb' : badRange d = false := by simp [badRange, hb]
      cases hw : d.Writer with
      | none =>
        have hstep : buildStep levelString st d = st := by simp [buildStep, hb, hw]
        rw [hstep]
        obtain ⟨h1, h2, h3⟩ := ih st h
        refine ⟨?_, ?_, h3⟩
        · rw [h1]; simp [List.filter_cons, hb']
        · rw [h2]; simp [List.filterMap_cons, fileCore, hb', hw]
      | some w =>
        have hstep : buildStep levelString st d =
            { st with names := (childCore st.names d w).1,
                      childCores := st.childCores ++ [(childCore st.names d w).2] } := by
          simp [buildStep, hb, hw]
        rw [hstep]
        obtain ⟨hc1, hc2⟩ := childCore_congr st.names names0 d w h
        obtain ⟨h1, h2, h3⟩ := ih
          { st with names := (childCore st.names d w).1,
                    childCores := st.childCores ++ [(childCore st.names d w).2] } hc2
        refine ⟨?_, ?_, h3⟩
        · rw [h1]; simp [List.filter_cons, hb']
        · rw [h2]; simp [List.filterMap_cons, fileCore, hb', hw, hc1]

/-- A fan-out over cores none of which is itself a fan-out offers entries to
exactly those cores. -/
theorem NewTee_children (cs : List Core) (h : ∀ c ∈ cs, c.isLeaf = true) :
    (NewTee cs).children = cs := by
  match cs, h with
  | [], _ => rfl
  | [c], h =>
    have hc := h c (by simp)
    cases c <;> simp_all [NewTee, Core.children, Core.isLeaf]
  | _ :: _ :: _, _ => rfl

/-- Every file core is an `exclusiveCore`. -/
theorem fileCore_isLeaf (names : List GoString) (d : LogFileConfig) (core : Core)
    (h : fileCore names d = some core) : core.isLeaf = true := by
  unfold fileCore at h
  split at h
  · exact absurd h (by simp)
  · cases hw : d.Writer with
    | none => rw [hw] at h; exact absurd h (by simp)
    | some w =>
      rw [hw] at h
      simp only [Option.map_some', Option.some.injEq] at h
      subst h
      unfold childCore
      split <;> rfl

/-- The cores of the fan-out `NewWithConfig` assembles, and both of its outcomes. -/
theorem NewWithConfig_eq (levelString : Level → GoString) (c : LogConfig) :
    NewWithConfig levelString c =
      if (c.LogFileConfigs.filter badRange).length > 0 then
        (none, some (str "logger: errors initialising logs," ++
          errorText ((c.LogFileConfigs.filter badRange).map
            (fun d => rangeError levelString d.LogRange.1 d.LogRange.2))))
      else
        (some { core := NewTee ((if c.ConsoleLog then consoleCores else []) ++
                  c.LogFileConfigs.filterMap (fileCore (loggerNamesToExclude c.LogFileConfigs))),
                name := [], context := [], callerSkip := c.RootCallerSkip,
                development := c.ConsoleLog }, none) := by
  obtain ⟨h1, h2, _⟩ := buildLoop_spec levelString (loggerNamesToExclude c.LogFileConfigs)
    c.LogFileConfigs
    { names := loggerNamesToExclude c.LogFileConfigs, Errs := [],
      childCores := if c.ConsoleLog then consoleCores else [] } rfl
  unfold NewWithConfig
  simp only [h1, h2, List.nil_append, List.length_map]

/-- The names collected by the first loop: the non-empty logger names of the
descriptors, whether or not they have a writer. -/
theorem mem_loggerNamesToExclude (ds : List LogFileConfig) (x : GoString) :
    x ∈ loggerNamesToExclude ds ↔ ∃ d ∈ ds, d.LoggerName ≠ [] ∧ x = d.LoggerName := by
  induction ds with
  | nil => simp [loggerNamesToExclude]
  | cons d rest ih =>
    unfold loggerNamesToExclude
    by_cases hn : d.LoggerName ≠ []
    · rw [if_pos hn, List.mem_cons, ih]
      constructor
      · rintro (h | ⟨y, hy, hy2⟩)
        · exact ⟨d, by simp, hn, h⟩
        · exact ⟨y, by simp [hy], hy2⟩
      · rintro ⟨y, hy, hyn, hyx⟩
        rcases List.mem_cons.1 hy with h | h
        · left; rw [hyx, h]
        · right; exact ⟨y, h, hyn, hyx⟩
    · rw [if_neg hn, ih]
      constructor
      · rintro ⟨y, hy, hy2⟩
        exact ⟨y, by simp [hy], hy2⟩
      · rintro ⟨y, hy, hyn, hyx⟩
        rcases List.mem_cons.1 hy with h | h
        · subst h; exact absurd hyn hn
        · exact ⟨y, h, hyn, hyx⟩

/-- The decision of the child core of a descriptor: the name filter (the exact
name for a named descriptor, absence from the exclusion list for a catch-all
one) and the level range, both bounds included. -/
theorem childCore_Check (names : List GoString) (d : LogFileConfig) (w : Writer)
    (ent : Entry) (ce : CheckedEntry) :
    (childCore names d w).2.Check ent ce =
      if (if d.LoggerName ≠ [] then ent.LoggerName = d.LoggerName
            else ent.LoggerName ∉ names) ∧
          d.LogRange.1 ≤ ent.Level ∧ ent.Level ≤ d.LogRange.2
      then ce ++ [WriteSyncer.file w] else ce := by
  have hin : ∀ ce0 : CheckedEntry,
      (Core.ioCore false (WriteSyncer.file w) (lvlFn d.LogRange.1 d.LogRange.2) []).Check ent ce0 =
        if d.LogRange.1 ≤ ent.Level ∧ ent.Level ≤ d.LogRange.2
        then ce0 ++ [WriteSyncer.file w] else ce0 := by
    intro ce0
    by_cases hl : d.LogRange.1 ≤ ent.Level ∧ ent.Level ≤ d.LogRange.2
    · simp [hl, Core.Check, lvlFn]
    · have hf : (decide (ent.Level ≥ d.LogRange.1) && decide (ent.Level ≤ d.LogRange.2)) = false := by
        simpa using hl
      simp only [Core.Check, lvlFn, hf, if_neg hl]
      simp
  by_cases hn : d.LoggerName ≠ []
  · have h1 : (childCore names d w).2 = (newExclusiveCore [d.LoggerName] true
        (Core.ioCore false (WriteSyncer.file w) (lvlFn d.LogRange.1 d.LogRange.2) [])).2 := by
      unfold childCore
      rw [if_pos hn]
    rw [h1, newExclusiveCore_Check, hin]
    by_cases he : ent.LoggerName = d.LoggerName
    · simp [he, hn]
    · simp [he, hn]
  · have h1 : (childCore names d w).2 = (newExclusiveCore names false
        (Core.ioCore false (WriteSyncer.file w) (lvlFn d.LogRange.1 d.LogRange.2) [])).2 := by
      unfold childCore
      rw [if_neg hn]
    rw [h1, newExclusiveCore_Check, hin]
    by_cases he : ent.LoggerName ∈ names
    · simp [he, hn]
    · simp [he, hn]

/-- On a configuration whose ranges are all in order `NewWithConfig` returns a
logger, and the child core of every descriptor with a writer is one of the
cores of its fan-out. -/
theorem NewWithConfig_valid (levelString : Level → GoString) (c : LogConfig)
    (d : LogFileConfig) (w : Writer)
    (hvalid : ∀ x ∈ c.LogFileConfigs, x.LogRange.1 ≤ x.LogRange.2)
    (hd : d ∈ c.LogFileConfigs) (hw : d.Writer = some w) :
    ∃ l, NewWithConfig levelString c = (some l, none) ∧
      (childCore (loggerNamesToExclude c.LogFileConfigs) d w).2 ∈ l.core.children := by
  have hnone : c.LogFileConfigs.filter badRange = [] := by
    rw [List.filter_eq_nil_iff]
    intro x hx
    have := hvalid x hx
    simp only [badRange, gt_iff_lt, decide_eq_true_eq, not_lt]
    exact this
  have hEq := NewWithConfig_eq levelString c
  rw [hnone] at hEq
  simp only [List.length_nil, gt_iff_lt, lt_self_iff_false, if_false] at hEq
  refine ⟨_, hEq, ?_⟩
  · simp only []
    rw [NewTee_children]
    · apply List.mem_append_right
      rw [List.mem_filterMap]
      refine ⟨d, hd, ?_⟩
      have hb : badRange d = false := by
        have := hvalid d hd
        simp only [badRange, gt_iff_lt, decide_eq_false_iff_not, not_lt]
        exact this
      simp [fileCore, hb, hw]
    · intro x hx
      rcases List.mem_append.1 hx with h | h
      · by_cases hc : c.ConsoleLog = true
        · rw [if_pos hc] at h
          simp only [consoleCores, List.mem_cons, List.mem_singleton, List.not_mem_nil,
            or_false] at h
          rcases h with h | h <;> (subst h; rfl)
        · rw [if_neg hc] at h
          exact absurd h (List.not_mem_nil _)
      · obtain ⟨y, _, hy⟩ := List.mem_filterMap.1 h
        exact fileCore_isLeaf _ y x hy

/-! ## Routing contracts -/

/-- C1: in a configuration whose ranges are all in order, the core built for a
catch-all descriptor with a writer is part of the fan-out; for a record whose
level lies in the descriptor's range it rejects the record (returns the checked
entry unchanged) when the record's logger name is the non-empty name of some
descriptor, and admits it (adds the descriptor's sink) when it is the name of
none. -/
theorem catchAll_core_routing (levelString : Level → GoString) (c : LogConfig)
    (d : LogFileConfig) (w : Writer) (ent : Entry) (ce : CheckedEntry)
    (hvalid : ∀ x ∈ c.LogFileConfigs, x.LogRange.1 ≤ x.LogRange.2)
    (hd : d ∈ c.LogFileConfigs) (hname : d.LoggerName = []) (hw : d.Writer = some w)
    (hlvl : d.LogRange.1 ≤ ent.Level ∧ ent.Level ≤ d.LogRange.2) :
    ∃ l core, NewWithConfig levelString c = (some l, none) ∧
      core = (childCore (loggerNamesToExclude c.LogFileConfigs) d w).2 ∧
      core ∈ l.core.children ∧
      ((∃ x ∈ c.LogFileConfigs, x.LoggerName ≠ [] ∧ ent.LoggerName = x.LoggerName) →
        core.Check ent ce = ce) ∧
      ((∀ x ∈ c.LogFileConfigs, x.LoggerName ≠ [] → ent.LoggerName ≠ x.LoggerName) →
        core.Check ent ce = ce ++ [WriteSyncer.file w]) := by
  obtain ⟨l, hl, hmem⟩ := NewWithConfig_valid levelString c d w hvalid hd hw
  refine ⟨l, _, hl, rfl, hmem, ?_, ?_⟩
  · intro hx
    have hin : ent.LoggerName ∈ loggerNamesToExclude c.LogFileConfigs :=
      (mem_loggerNamesToExclude _ _).2 hx
    rw [childCore_Check]
    simp [hname, hin]
  · intro hx
    have hin : ent.LoggerName ∉ loggerNamesToExclude c.LogFileConfigs := by
      intro h
      obtain ⟨y, hy, hyn, hye⟩ := (mem_loggerNamesToExclude _ _).1 h
      exact hx y hy hyn hye
    rw [childCore_Check]
    simp [hname, hin, hlvl]

/-- C1 at the example configuration: the catch-all descriptor of `info.log` and
an info record of the logger `db`. -/
theorem catchAll_core_routing_witness :
    ∃ l core, NewWithConfig exampleLevelString exampleConfig = (some l, none) ∧
      core = (childCore (loggerNamesToExclude exampleConfig.LogFileConfigs) infoConf
        (exampleFile "info.log")).2 ∧
      core ∈ l.core.children ∧
      ((∃ x ∈ exampleConfig.LogFileConfigs, x.LoggerName ≠ [] ∧
          dbEntry.LoggerName = x.LoggerName) → core.Check dbEntry [] = []) ∧
      ((∀ x ∈ exampleConfig.LogFileConfigs, x.LoggerName ≠ [] →
          dbEntry.LoggerName ≠ x.LoggerName) →
        core.Check dbEntry [] = [] ++ [WriteSyncer.file (exampleFile "info.log")]) :=
  catchAll_core_routing exampleLevelString exampleConfig infoConf (exampleFile "info.log")
    dbEntry [] (by decide) (by decide) rfl rfl (by decide)

/-- C2: in a configuration whose ranges are all in order, the core built for a
descriptor named `N` with a writer is part of the fan-out; it rejects every
record whose logger name differs from `N`, whatever its level, and admits a
record named `N` exactly when its level is in the descriptor's range. -/
theorem named_core_routing (levelString : Level → GoString) (c : LogConfig)
    (d : LogFileConfig) (w : Writer) (ent : Entry) (ce : CheckedEntry)
    (hvalid : ∀ x ∈ c.LogFileConfigs, x.LogRange.1 ≤ x.LogRange.2)
    (hd : d ∈ c.LogFileConfigs) (hname : d.LoggerName ≠ []) (hw : d.Writer = some w) :
    ∃ l core, NewWithConfig levelString c = (some l, none) ∧
      core = (childCore (loggerNamesToExclude c.LogFileConfigs) d w).2 ∧
      core ∈ l.core.children ∧
      (ent.LoggerName ≠ d.LoggerName → core.Check ent ce = ce) ∧
      (ent.LoggerName = d.LoggerName →
        core.Check ent ce =
          if d.LogRange.1 ≤ ent.Level ∧ ent.Level ≤ d.LogRange.2
          then ce ++ [WriteSyncer.file w] else ce) := by
  obtain ⟨l, hl, hmem⟩ := NewWithConfig_valid levelString c d w hvalid hd hw
  refine ⟨l, _, hl, rfl, hmem, ?_, ?_⟩
  · intro hne
    rw [childCore_Check]
    simp [hname, hne]
  · intro he
    rw [childCore_Check]
    simp [hname, he]

/-- C2 at the example configuration: the descriptor named `db` and an info
record of the logger `db`. -/
theorem named_core_routing_witness :
    ∃ l core, NewWithConfig exampleLevelString exampleConfig = (some l, none) ∧
      core = (childCore (loggerNamesToExclude exampleConfig.LogFileConfigs) dbConf
        (exampleFile "db.log")).2 ∧
      core ∈ l.core.children ∧
      (dbEntry.LoggerName ≠ dbConf.LoggerName → core.Check dbEntry [] = []) ∧
      (dbEntry.LoggerName = dbConf.LoggerName →
        core.Check dbEntry [] =
          if dbConf.LogRange.1 ≤ dbEntry.Level ∧ dbEntry.Level ≤ dbConf.LogRange.2
          then [] ++ [WriteSyncer.file (exampleFile "db.log")] else []) :=
  named_core_routing exampleLevelString exampleConfig dbConf (exampleFile "db.log")
    dbEntry [] (by decide) (by decide) (by decide) rfl

/-- C3: for a descriptor with range `(low, high)`, `low <= high`, and a writer,
and a record whose logger name passes the descriptor's name filter, the level
gate accepts level `L` iff `low <= L <= high`, the core admits the record iff
its level is in that range, and both bounds are accepted. -/
theorem level_gate_inclusive (names : List GoString) (d : LogFileConfig) (w : Writer)
    (ent : Entry) (ce : CheckedEntry)
    (hrange : d.LogRange.1 ≤ d.LogRange.2)
    (hpass : if d.LoggerName ≠ [] then ent.LoggerName = d.LoggerName
      else ent.LoggerName ∉ names) :
    (lvlFn d.LogRange.1 d.LogRange.2 ent.Level = true ↔
        d.LogRange.1 ≤ ent.Level ∧ ent.Level ≤ d.LogRange.2) ∧
      (childCore names d w).2.Check ent ce =
        (if d.LogRange.1 ≤ ent.Level ∧ ent.Level ≤ d.LogRange.2
         then ce ++ [WriteSyncer.file w] else ce) ∧
      lvlFn d.LogRange.1 d.LogRange.2 d.LogRange.1 = true ∧
      lvlFn d.LogRange.1 d.LogRange.2 d.LogRange.2 = true := by
  refine ⟨by simp [lvlFn], ?_, by simp [lvlFn, hrange], by simp [lvlFn, hrange]⟩
  rw [childCore_Check]
  by_cases hl : d.LogRange.1 ≤ ent.Level ∧ ent.Level ≤ d.LogRange.2
  · rw [if_pos hl, if_pos ⟨hpass, hl⟩]
  · rw [if_neg hl, if_neg (fun h => hl h.2)]

/-- C3 at the descriptor of `info.log` and a record at its lower bound. -/
theorem level_gate_inclusive_witness :
    (lvlFn infoConf.LogRange.1 infoConf.LogRange.2 (0 : Level) = true ↔
        infoConf.LogRange.1 ≤ (0 : Level) ∧ (0 : Level) ≤ infoConf.LogRange.2) ∧
      (childCore [str "db", str "data"] infoConf (exampleFile "info.log")).2.Check
          { Level := 0, LoggerName := str "web", Message := [] } [] =
        (if infoConf.LogRange.1 ≤ (0 : Level) ∧ (0 : Level) ≤ infoConf.LogRange.2
         then [] ++ [WriteSyncer.file (exampleFile "info.log")] else []) ∧
      lvlFn infoConf.LogRange.1 infoConf.LogRange.2 infoConf.LogRange.1 = true ∧
      lvlFn infoConf.LogRange.1 infoConf.LogRange.2 infoConf.LogRange.2 = true :=
  level_gate_inclusive [str "db", str "data"] infoConf (exampleFile "info.log")
    { Level := 0, LoggerName := str "web", Message := [] } [] (by decide) (by decide)

/-- The fan-out of the example configuration at work: an info record of `db`
goes to standard output and `db.log` only, a warning of an unclaimed logger to
standard error and both catch-all files, a debug record of `data` to standard
output only. -/
theorem example_fanout :
    (NewWithConfig exampleLevelString exampleConfig).1.map
        (fun l => (l.core.Check dbEntry [],
          l.core.Check { Level := 1, LoggerName := str "web", Message := [] } [],
          l.core.Check { Level := -1, LoggerName := str "data", Message := [] } [])) =
      some ([WriteSyncer.stdout, WriteSyncer.file (exampleFile "db.log")],
        [WriteSyncer.stderr, WriteSyncer.file (exampleFile "info.log"),
          WriteSyncer.file (exampleFile "error.log")],
        [WriteSyncer.stdout]) := by
  decide

/-! ## Validation of the ranges -/

/-- The aggregate text is the bracketed errors, one after the other. -/
theorem errorText_eq_flatten (es : List GoString) :
    errorText es = (es.map (fun e => str "[" ++ e ++ str "]")).flatten := by
  induction es with
  | nil => rfl
  | cons e rest ih => simp [errorText, ih]

/-- C4: `NewWithConfig` returns a nil logger with a non-nil error iff some
descriptor, with or without a writer, has `LogRange[0] > LogRange[1]`; the
error text is then the fixed prefix followed by one bracketed entry per such
descriptor, in configuration order, each made of that descriptor's high and low
bounds; with no such descriptor the error is nil and the logger is not. -/
theorem NewWithConfig_reports_every_bad_range (levelString : Level → GoString)
    (c : LogConfig) :
    (((NewWithConfig levelString c).1.isNone = true ∧ (NewWithConfig levelString c).2 ≠ none) ↔
        ∃ d ∈ c.LogFileConfigs, d.LogRange.1 > d.LogRange.2) ∧
      (NewWithConfig levelString c).2 =
        (if c.LogFileConfigs.filter badRange = [] then none
         else some (str "logger: errors initialising logs," ++
           ((c.LogFileConfigs.filter badRange).map
             (fun d => str "[" ++ (str "log level high (" ++ levelString d.LogRange.2 ++
               str ") is smaller than low (" ++ levelString d.LogRange.1 ++ str ")") ++
               str "]")).flatten)) ∧
      ((NewWithConfig levelString c).1.isNone = true ↔
        (NewWithConfig levelString c).2 ≠ none) := by
  have hEq := NewWithConfig_eq levelString c
  by_cases hnil : c.LogFileConfigs.filter badRange = []
  · have hno : ¬ ∃ d ∈ c.LogFileConfigs, d.LogRange.1 > d.LogRange.2 := by
      rintro ⟨d, hd, hbad⟩
      have := (List.filter_eq_nil_iff.1 hnil) d hd
      simp [badRange, hbad] at this
    rw [hnil] at hEq
    simp only [List.length_nil, gt_iff_lt, lt_self_iff_false, if_false] at hEq
    rw [hEq]
    simp only [if_pos hnil]
    refine ⟨?_, trivial, ?_⟩
    · constructor
      · rintro ⟨h, _⟩
        simp at h
      · intro h
        exact absurd h hno
    · simp
  · have hex : ∃ d ∈ c.LogFileConfigs, d.LogRange.1 > d.LogRange.2 := by
      by_contra hc
      apply hnil
      rw [List.filter_eq_nil_iff]
      intro d hd hb
      apply hc
      refine ⟨d, hd, ?_⟩
      simpa [badRange] using hb
    have hlen : (c.LogFileConfigs.filter badRange).length > 0 :=
      List.length_pos.2 hnil
    rw [if_pos hlen] at hEq
    rw [hEq]
    simp only [if_neg hnil]
    refine ⟨?_, ?_, ?_⟩
    · constructor
      · intro _
        exact hex
      · intro _
        simp
    · rw [errorText_eq_flatten, List.map_map]
      rfl
    · simp

/-- C4 on an example: two ranges out of order give one text with both entries. -/
theorem NewWithConfig_two_bad_ranges :
    (NewWithConfig exampleLevelString twoBadRanges).2 =
      some (str ("logger: errors initialising logs," ++
        "[log level high (info) is smaller than low (fatal)]" ++
        "[log level high (info) is smaller than low (warn)]")) ∧
      (NewWithConfig exampleLevelString twoBadRanges).1.isNone = true := by
  decide

/-! ## The kind tag -/

/-- The texts `unmarshalText` recognises. -/
theorem unmarshalText_true (v : LogFileType) (text : GoString)
    (h : (unmarshalText v text).2 = true) :
    text = str "Lumberjack" ∨ text = str "lumberjack" ∨ text = str "lj" ∨
      text = str "Logfeller" ∨ text = str "logfeller" ∨ text = str "lf" ∨ text = [] := by
  unfold unmarshalText at h
  split at h
  · rename_i h1; rcases h1 with h1 | h1 | h1 <;> simp [h1]
  · split at h
    · rename_i h1; rcases h1 with h1 | h1 | h1 <;> simp [h1]
    · split at h
      · rename_i h1; simp [h1]
      · exact absurd h (by simp)

/-- A text that is not recognised leaves the target as it was. -/
theorem unmarshalText_false (v : LogFileType) (text : GoString)
    (h : (unmarshalText v text).2 = false) : (unmarshalText v text).1 = v := by
  unfold unmarshalText at h ⊢
  split
  · rename_i h1; rw [if_pos h1] at h; exact absurd h (by simp)
  · rename_i h1
    rw [if_neg h1] at h
    split
    · rename_i h2; rw [if_pos h2] at h; exact absurd h (by simp)
    · rename_i h2
      rw [if_neg h2] at h
      split
      · rename_i h3; rw [if_pos h3] at h; exact absurd h (by simp)
      · rfl

/-- On a text of ASCII bytes `bytes.ToLower` does not reach the Unicode tables. -/
theorem bytesToLower_ascii (U : GoString → GoString) (s : GoString)
    (h : s.all (fun c => decide (c < 128)) = true) :
    bytesToLower U s = bytesToLower exampleLower s := by
  unfold bytesToLower
  rw [if_pos h, if_pos h]

/-- Membership of the lowering of an ASCII text does not depend on the Unicode
tables. -/
theorem bytesToLower_ascii_mem (U : GoString → GoString) (s : GoString)
    (l : List GoString) (h : s.all (fun c => decide (c < 128)) = true)
    (hm : bytesToLower exampleLower s ∈ l) : bytesToLower U s ∈ l := by
  rw [bytesToLower_ascii U s h]
  exact hm

/-- Lowering a recognised text gives a recognised text of the same kind, in
lower case. -/
theorem unmarshalText_lower_of_true (U : GoString → GoString) (v : LogFileType)
    (text : GoString) (h : (unmarshalText v text).2 = true) :
    unmarshalText v (bytesToLower U text) = unmarshalText v text ∧
      bytesToLower U text ∈ [str "lumberjack", str "lj", str "logfeller", str "lf", []] := by
  rcases unmarshalText_true v text h with h1 | h1 | h1 | h1 | h1 | h1 | h1 <;>
    (subst h1; exact ⟨rfl, bytesToLower_ascii_mem U _ _ (by decide) (by decide)⟩)

/-- The ASCII lowering of a byte is its own lowering. -/
theorem lowerByte_idem (c : Nat) : lowerByte (lowerByte c) = lowerByte c := by
  unfold lowerByte
  split_ifs <;> omega

/-- With bytes outside ASCII left alone, `bytes.ToLower` lowers byte by byte. -/
theorem bytesToLower_exampleLower (s : GoString) :
    bytesToLower exampleLower s = s.map lowerByte := by
  unfold bytesToLower
  split
  · split
    · rfl
    · rename_i hno
      symm
      have hall : ∀ c ∈ s, lowerByte c = c := by
        intro c hc
        unfold lowerByte
        split
        · rename_i hup
          exact absurd (List.any_eq_true.2 ⟨c, hc, by simpa using hup⟩) hno
        · rfl
      calc s.map lowerByte = s.map id := List.map_congr_left hall
        _ = s := List.map_id s
  · rfl

/-- Lowering twice is lowering once, with bytes outside ASCII left alone. -/
theorem bytesToLower_exampleLower_idem (s : GoString) :
    bytesToLower exampleLower (bytesToLower exampleLower s) = bytesToLower exampleLower s := by
  rw [bytesToLower_exampleLower, bytesToLower_exampleLower, List.map_map]
  apply List.map_congr_left
  intro c _
  exact lowerByte_idem c

/-- C5: given that `bytes.ToLower` is idempotent, `UnmarshalText` gives for every
text the same target value and the same success or failure as for the
lower-cased text; `lf`, `logfeller` and `Logfeller` decode to `Logfeller`, `lj`,
`lumberjack` and `Lumberjack` to `Lumberjack`, and the empty text to
`NoWriter`. -/
theorem UnmarshalText_case_insensitive (U : GoString → GoString) (t : Option LogFileType)
    (v : LogFileType) (text : GoString)
    (hidem : ∀ s, bytesToLower U (bytesToLower U s) = bytesToLower U s) :
    ((UnmarshalText U t text).1 = (UnmarshalText U t (bytesToLower U text)).1 ∧
        ((UnmarshalText U t text).2 = none ↔
          (UnmarshalText U t (bytesToLower U text)).2 = none)) ∧
      UnmarshalText U (some v) (str "lf") = (some Logfeller, none) ∧
      UnmarshalText U (some v) (str "logfeller") = (some Logfeller, none) ∧
      UnmarshalText U (some v) (str "Logfeller") = (some Logfeller, none) ∧
      UnmarshalText U (some v) (str "lj") = (some Lumberjack, none) ∧
      UnmarshalText U (some v) (str "lumberjack") = (some Lumberjack, none) ∧
      UnmarshalText U (some v) (str "Lumberjack") = (some Lumberjack, none) ∧
      UnmarshalText U (some v) [] = (some NoWriter, none) := by
  refine ⟨?_, rfl, rfl, rfl, rfl, rfl, rfl, rfl⟩
  cases t with
  | none => exact ⟨rfl, by simp [UnmarshalText]⟩
  | some w =>
    unfold UnmarshalText
    simp only []
    rw [hidem]
    cases h1 : (unmarshalText w text).2 with
    | true =>
      obtain ⟨he, _⟩ := unmarshalText_lower_of_true U w text h1
      rw [he, h1]
      simp
    | false =>
      have hw : (unmarshalText w text).1 = w := unmarshalText_false w text h1
      rw [hw]
      cases h2 : (unmarshalText w (bytesToLower U text)).2 with
      | true => simp
      | false =>
        have hw2 : (unmarshalText w (bytesToLower U text)).1 = w :=
          unmarshalText_false w _ h2
        simp [hw2, h2]

/-- C5 with bytes outside ASCII left alone, at the text `LF`. -/
theorem UnmarshalText_case_insensitive_witness :
    ((UnmarshalText exampleLower (some NoWriter) (str "LF")).1 =
        (UnmarshalText exampleLower (some NoWriter) (bytesToLower exampleLower (str "LF"))).1 ∧
        ((UnmarshalText exampleLower (some NoWriter) (str "LF")).2 = none ↔
          (UnmarshalText exampleLower (some NoWriter)
            (bytesToLower exampleLower (str "LF"))).2 = none)) ∧
      UnmarshalText exampleLower (some NoWriter) (str "lf") = (some Logfeller, none) ∧
      UnmarshalText exampleLower (some NoWriter) (str "logfeller") = (some Logfeller, none) ∧
      UnmarshalText exampleLower (some NoWriter) (str "Logfeller") = (some Logfeller, none) ∧
      UnmarshalText exampleLower (some NoWriter) (str "lj") = (some Lumberjack, none) ∧
      UnmarshalText exampleLower (some NoWriter) (str "lumberjack") = (some Lumberjack, none) ∧
      UnmarshalText exampleLower (some NoWriter) (str "Lumberjack") = (some Lumberjack, none) ∧
      UnmarshalText exampleLower (some NoWriter) [] = (some NoWriter, none) :=
  UnmarshalText_case_insensitive exampleLower (some NoWriter) NoWriter (str "LF")
    bytesToLower_exampleLower_idem

/-- C6: given that `bytes.ToLower` is idempotent, for a text whose lower-casing
is none of `lumberjack`, `lj`, `logfeller`, `lf` and the empty text,
`UnmarshalText` on a non-nil target returns an error and leaves the target's
value as it was. -/
theorem UnmarshalText_unrecognised (U : GoString → GoString) (v : LogFileType)
    (text : GoString)
    (hidem : ∀ s, bytesToLower U (bytesToLower U s) = bytesToLower U s)
    (hlow : bytesToLower U text ∉ [str "lumberjack", str "lj", str "logfeller", str "lf", []]) :
    (UnmarshalText U (some v) text).1 = some v ∧
      (UnmarshalText U (some v) text).2 =
        some (str "unrecognised LogFileType: " ++ quote text) := by
  have h1 : (unmarshalText v text).2 = false := by
    cases h : (unmarshalText v text).2 with
    | false => rfl
    | true => exact absurd (unmarshalText_lower_of_true U v text h).2 hlow
  have h2 : (unmarshalText v (bytesToLower U text)).2 = false := by
    cases h : (unmarshalText v (bytesToLower U text)).2 with
    | false => rfl
    | true =>
      have hm := (unmarshalText_lower_of_true U v _ h).2
      rw [hidem] at hm
      exact absurd hm hlow
  have hw : (unmarshalText v text).1 = v := unmarshalText_false v text h1
  have hw2 : (unmarshalText v (bytesToLower U text)).1 = v := unmarshalText_false v _ h2
  unfold UnmarshalText
  simp [h1, h2, hw, hw2]

/-- C6 at the text `csv`, with bytes outside ASCII left alone. -/
theorem UnmarshalText_unrecognised_witness :
    (UnmarshalText exampleLower (some Logfeller) (str "csv")).1 = some Logfeller ∧
      (UnmarshalText exampleLower (some Logfeller) (str "csv")).2 =
        some (str "unrecognised LogFileType: " ++ quote (str "csv")) :=
  UnmarshalText_unrecognised exampleLower Logfeller (str "csv")
    bytesToLower_exampleLower_idem (by decide)

/-- The verb `%q` at work: plain text between quotes, a backslash before a
double quote and a backslash, the short escape of a newline, the hexadecimal
escape of the control byte 1. -/
theorem quote_examples :
    quote (str "csv") = [34, 99, 115, 118, 34] ∧
      quote [97, 34, 98] = [34, 97, 92, 34, 98, 34] ∧
      quote [92] = [34, 92, 92, 34] ∧
      quote [10] = [34, 92, 110, 34] ∧
      quote [1] = [34, 92, 120, 48, 49, 34] ∧
      quote [127] = [34, 92, 120, 55, 102, 34] := by
  decide

/-! ## Decoding of a descriptor -/

/-- A recognised text sets one of the three kinds. -/
theorem unmarshalText_kind (v : LogFileType) (text : GoString)
    (h : (unmarshalText v text).2 = true) :
    (unmarshalText v text).1 = NoWriter ∨ (unmarshalText v text).1 = Lumberjack ∨
      (unmarshalText v text).1 = Logfeller := by
  unfold unmarshalText at h ⊢
  split
  · right; left; rfl
  · split
    · right; right; rfl
    · split
      · left; rfl
      · rename_i h1 h2 h3
        rw [if_neg h1, if_neg h2, if_neg h3] at h
        exact absurd h (by simp)

/-- The three kinds are different. -/
theorem kinds_ne : NoWriter ≠ Lumberjack ∧ NoWriter ≠ Logfeller ∧ Lumberjack ≠ Logfeller := by
  decide

/-- A text that `UnmarshalText` accepts on a zero kind gives one of the three
kinds. -/
theorem textType_kind (ext : External) (text : GoString) (k : LogFileType)
    (h : textType ext text = some k) :
    k = NoWriter ∨ k = Lumberjack ∨ k = Logfeller := by
  unfold textType UnmarshalText at h
  simp only [] at h
  cases h1 : (unmarshalText NoWriter text).2 with
  | true =>
    have hk := unmarshalText_kind NoWriter text h1
    simp only [h1, Bool.not_true, Bool.false_eq_true, if_false, Option.some.injEq] at h
    rw [← h]
    exact hk
  | false =>
    have hw : (unmarshalText NoWriter text).1 = NoWriter := unmarshalText_false _ _ h1
    rw [h1, hw] at h
    cases h2 : (unmarshalText NoWriter (bytesToLower ext.mapUnicodeLower text)).2 with
    | true =>
      have hk := unmarshalText_kind NoWriter _ h2
      simp only [h2, Bool.not_false, Bool.not_true, Bool.false_eq_true, if_true, if_false,
        Option.some.injEq] at h
      rw [← h]
      exact hk
    | false =>
      simp [h2] at h

/-- The kind decoded from JSON is one of the three kinds. -/
theorem jsonType_kind (ext : External) (v : Option Raw) (k : LogFileType)
    (h : jsonType ext v = some k) : k = NoWriter ∨ k = Lumberjack ∨ k = Logfeller := by
  unfold jsonType at h
  split at h
  · left; exact (Option.some.inj h).symm
  · left; exact (Option.some.inj h).symm
  · exact textType_kind ext _ k h
  · exact absurd h (by simp)

/-- The kind decoded from YAML is one of the three kinds. -/
theorem yamlType_kind (ext : External) (v : Option Raw) (k : LogFileType)
    (h : yamlType ext v = some k) : k = NoWriter ∨ k = Lumberjack ∨ k = Logfeller := by
  unfold yamlType at h
  split at h
  · left; exact (Option.some.inj h).symm
  · left; exact (Option.some.inj h).symm
  · exact textType_kind ext _ k h
  · exact textType_kind ext _ k h
  · exact absurd h (by simp)

/-- The base document decodes from JSON when its three fields do, and gives
the library's error otherwise. -/
theorem jsonUnmarshalBase_cases (ext : External) (doc : Document) :
    (∃ n r t, jsonString doc.logger_name = some n ∧ jsonRange ext doc.log_range = some r ∧
        jsonType ext doc.type_ = some t ∧
        jsonUnmarshalBase ext doc =
          ({ LoggerName := n, LogRange := r, Type_ := t, FileHandler := doc.file_handler },
            none)) ∨
      ((jsonString doc.logger_name = none ∨ jsonRange ext doc.log_range = none ∨
          jsonType ext doc.type_ = none) ∧
        (jsonUnmarshalBase ext doc).2 = some (ext.jsonErrorText doc)) := by
  unfold jsonUnmarshalBase
  cases h1 : jsonString doc.logger_name with
  | none => right; exact ⟨Or.inl rfl, rfl⟩
  | some n =>
    cases h2 : jsonRange ext doc.log_range with
    | none => right; exact ⟨Or.inr (Or.inl rfl), rfl⟩
    | some r =>
      cases h3 : jsonType ext doc.type_ with
      | none => right; exact ⟨Or.inr (Or.inr rfl), rfl⟩
      | some t => left; exact ⟨n, r, t, rfl, rfl, rfl, rfl⟩

/-- The base document decodes from YAML when its three fields do, and gives
the library's error otherwise. -/
theorem yamlUnmarshalBase_cases (ext : External) (doc : Document) :
    (∃ n r t, yamlString doc.logger_name = some n ∧ yamlRange ext doc.log_range = some r ∧
        yamlType ext doc.type_ = some t ∧
        yamlUnmarshalBase ext doc = ({ LoggerName := n, LogRange := r, Type_ := t }, none)) ∨
      ((yamlString doc.logger_name = none ∨ yamlRange ext doc.log_range = none ∨
          yamlType ext doc.type_ = none) ∧
        (yamlUnmarshalBase ext doc).2 = some (ext.yamlErrorText doc)) := by
  unfold yamlUnmarshalBase
  cases h1 : yamlString doc.logger_name with
  | none => right; exact ⟨Or.inl rfl, rfl⟩
  | some n =>
    cases h2 : yamlRange ext doc.log_range with
    | none => right; exact ⟨Or.inr (Or.inl rfl), rfl⟩
    | some r =>
      cases h3 : yamlType ext doc.type_ with
      | none => right; exact ⟨Or.inr (Or.inr rfl), rfl⟩
      | some t => left; exact ⟨n, r, t, rfl, rfl, rfl, rfl⟩

/-- When a field of the base document fails to decode, `UnmarshalJSON` returns
the library's error and leaves the descriptor as it was. -/
theorem UnmarshalJSON_base_error (ext : External) (c : LogFileConfig) (doc : Document)
    (h : (jsonUnmarshalBase ext doc).2 = some (ext.jsonErrorText doc)) :
    UnmarshalJSON ext c doc = (c, some (ext.jsonErrorText doc)) := by
  unfold UnmarshalJSON
  simp [h]

/-- When a field of the base document fails to decode, `UnmarshalYAML` returns
the library's error and leaves the descriptor as it was. -/
theorem UnmarshalYAML_base_error (ext : External) (c : LogFileConfig) (doc : Document)
    (h : (yamlUnmarshalBase ext doc).2 = some (ext.yamlErrorText doc)) :
    UnmarshalYAML ext c doc = (c, some (ext.yamlErrorText doc)) := by
  unfold UnmarshalYAML
  simp [h]

/-- When `UnmarshalJSON` returns no error, the three fields of the base
document decoded and were copied into the descriptor. -/
theorem UnmarshalJSON_ok (ext : External) (c : LogFileConfig) (doc : Document)
    (h : (UnmarshalJSON ext c doc).2 = none) :
    jsonString doc.logger_name = some (UnmarshalJSON ext c doc).1.LoggerName ∧
      jsonRange ext doc.log_range = some (UnmarshalJSON ext c doc).1.LogRange ∧
      jsonType ext doc.type_ = some (UnmarshalJSON ext c doc).1.Type_ := by
  rcases jsonUnmarshalBase_cases ext doc with ⟨n, r, t, h1, h2, h3, hb⟩ | ⟨_, he⟩
  · rw [h1, h2, h3]
    unfold UnmarshalJSON
    rw [hb]
    simp only [ne_eq, not_true_eq_false, if_false]
    split_ifs <;> exact ⟨rfl, rfl, rfl⟩
  · rw [UnmarshalJSON_base_error ext c doc he] at h
    exact absurd h (by simp)

/-- When `UnmarshalYAML` returns no error, the three fields of the base
document decoded and were copied into the descriptor. -/
theorem UnmarshalYAML_ok (ext : External) (c : LogFileConfig) (doc : Document)
    (h : (UnmarshalYAML ext c doc).2 = none) :
    yamlString doc.logger_name = some (UnmarshalYAML ext c doc).1.LoggerName ∧
      yamlRange ext doc.log_range = some (UnmarshalYAML ext c doc).1.LogRange ∧
      yamlType ext doc.type_ = some (UnmarshalYAML ext c doc).1.Type_ := by
  rcases yamlUnmarshalBase_cases ext doc with ⟨n, r, t, h1, h2, h3, hb⟩ | ⟨_, he⟩
  · rw [h1, h2, h3]
    unfold UnmarshalYAML
    rw [hb]
    simp only [ne_eq, not_true_eq_false, if_false]
    split_ifs <;> exact ⟨rfl, rfl, rfl⟩
  · rw [UnmarshalYAML_base_error ext c doc he] at h
    exact absurd h (by simp)

/-- The handler decoded from JSON without error: the raw message is `null` and
the writer is reset to nil, or it is an object and the writer points to the
sink's decoding of it. -/
theorem jsonUnmarshalHandler_ok (decode : HandlerDoc → Option Settings) (errText : GoString)
    (raw : Option Raw) (h : (jsonUnmarshalHandler decode errText raw).2 = none) :
    (raw = some Raw.null ∧ (jsonUnmarshalHandler decode errText raw).1 = none) ∨
      ∃ hd st, raw = some (Raw.object hd) ∧ decode hd = some st ∧
        (jsonUnmarshalHandler decode errText raw).1 = some st := by
  unfold jsonUnmarshalHandler at h ⊢
  split at h
  · exact absurd h (by simp)
  · left; exact ⟨rfl, rfl⟩
  · rename_i hd
    right
    cases hdec : decode hd with
    | none => simp [hdec] at h
    | some st => exact ⟨hd, st, rfl, hdec, by simp [hdec]⟩
  · exact absurd h (by simp)

/-- C7 fails on a descriptor of type `lf` whose `file_handler` is `null`:
`UnmarshalJSON` returns no error and a descriptor of kind `Logfeller` whose
writer is nil, because `json.Unmarshal` of `null` into `&c.Writer` resets the
writer just set to an empty `logfeller.File`; `UnmarshalYAML` gives the same
document an empty `logfeller.File`. -/
theorem null_handler_leaves_writer_nil (ext : External) :
    UnmarshalJSON ext emptyLogFileConfig nullHandlerDoc =
        ({ LoggerName := [], LogRange := (0, 0), Type_ := Logfeller, Writer := none }, none) ∧
      UnmarshalYAML ext emptyLogFileConfig nullHandlerDoc =
        ({ LoggerName := [], LogRange := (0, 0), Type_ := Logfeller,
           Writer := some (Writer.logfellerFile []) }, none) :=
  ⟨rfl, rfl⟩

/-- What C7 says does hold when `file_handler` is not `null`: a document that
`UnmarshalJSON` decodes without error into an empty `LogFileConfig` gives the
decoded logger name, range and kind, and a writer chosen by the kind: nil for
`NoWriter`, the sink decoded from the object under `file_handler` otherwise. -/
theorem UnmarshalJSON_fields_unless_null (ext : External) (doc : Document)
    (hok : (UnmarshalJSON ext emptyLogFileConfig doc).2 = none)
    (hnn : doc.file_handler ≠ some Raw.null) :
    jsonString doc.logger_name =
        some (UnmarshalJSON ext emptyLogFileConfig doc).1.LoggerName ∧
      jsonRange ext doc.log_range = some (UnmarshalJSON ext emptyLogFileConfig doc).1.LogRange ∧
      jsonType ext doc.type_ = some (UnmarshalJSON ext emptyLogFileConfig doc).1.Type_ ∧
      (((UnmarshalJSON ext emptyLogFileConfig doc).1.Type_ = NoWriter ∧
          (UnmarshalJSON ext emptyLogFileConfig doc).1.Writer = none) ∨
        ((UnmarshalJSON ext emptyLogFileConfig doc).1.Type_ = Lumberjack ∧
          ∃ hd st, doc.file_handler = some (Raw.object hd) ∧
            ext.decodeLumberjack hd = some st ∧
            (UnmarshalJSON ext emptyLogFileConfig doc).1.Writer =
              some (Writer.lumberjackLogger st)) ∨
        ((UnmarshalJSON ext emptyLogFileConfig doc).1.Type_ = Logfeller ∧
          ∃ hd st, doc.file_handler = some (Raw.object hd) ∧
            ext.decodeLogfeller hd = some st ∧
            (UnmarshalJSON ext emptyLogFileConfig doc).1.Writer =
              some (Writer.logfellerFile st))) := by
  obtain ⟨h1, h2, h3⟩ := UnmarshalJSON_ok ext emptyLogFileConfig doc hok
  refine ⟨h1, h2, h3, ?_⟩
  rcases jsonUnmarshalBase_cases ext doc with ⟨n, r, t, _, _, ht, hb⟩ | ⟨_, he⟩
  · revert hok
    unfold UnmarshalJSON
    rw [hb]
    simp only [ne_eq, not_true_eq_false, if_false, emptyLogFileConfig]
    rcases jsonType_kind ext _ t ht with hk | hk | hk
    · subst hk
      intro _
      simp
    · subst hk
      simp only [kinds_ne.1.symm, if_false, if_true]
      intro hok
      rcases jsonUnmarshalHandler_ok _ _ _ hok with ⟨hnull, _⟩ | ⟨hd, st, hraw, hdec, hres⟩
      · exact absurd hnull hnn
      · right; left
        exact ⟨trivial, hd, st, hraw, hdec, by rw [hres]; rfl⟩
    · subst hk
      simp only [kinds_ne.2.1.symm, kinds_ne.2.2.symm, if_false, if_true]
      intro hok
      rcases jsonUnmarshalHandler_ok _ _ _ hok with ⟨hnull, _⟩ | ⟨hd, st, hraw, hdec, hres⟩
      · exact absurd hnull hnn
      · right; right
        exact ⟨trivial, hd, st, hraw, hdec, by rw [hres]; rfl⟩
  · rw [UnmarshalJSON_base_error ext _ doc he] at hok
    exact absurd hok (by simp)

/-- C8 fails on a descriptor of type `lf` without a sub-document: `UnmarshalJSON`
returns the error of `json.Unmarshal` on an empty raw message (and leaves an
empty `logfeller.File` as writer), `UnmarshalYAML` succeeds with an empty
`logfeller.File`. -/
theorem missing_handler_json_fails_yaml_succeeds :
    UnmarshalJSON exampleExternal emptyLogFileConfig noHandlerDoc =
        ({ LoggerName := [], LogRange := (0, 0), Type_ := Logfeller,
           Writer := some (Writer.logfellerFile []) },
         some (str "unexpected end of JSON input")) ∧
      UnmarshalYAML exampleExternal emptyLogFileConfig noHandlerDoc =
        ({ LoggerName := [], LogRange := (0, 0), Type_ := Logfeller,
           Writer := some (Writer.logfellerFile []) }, none) := by
  decide

/-- The four example descriptors decode to the same values from JSON and from
YAML: names, ranges (the fourth by default), kind and writer. -/
theorem example_documents_agree :
    [infoDoc, errorDoc, dbDoc, dataDoc].map (UnmarshalJSON exampleExternal emptyLogFileConfig) =
        [infoDoc, errorDoc, dbDoc, dataDoc].map (UnmarshalYAML exampleExternal emptyLogFileConfig) ∧
      [infoDoc, errorDoc, dbDoc, dataDoc].map
          (fun doc => (UnmarshalJSON exampleExternal emptyLogFileConfig doc).1) =
        [{ LoggerName := [], LogRange := (0, 5), Type_ := Logfeller,
           Writer := some (Writer.logfellerFile (exampleHandler "info.log")) },
         { LoggerName := [], LogRange := (1, 5), Type_ := Logfeller,
           Writer := some (Writer.logfellerFile (exampleHandler "error.log")) },
         { LoggerName := str "db", LogRange := (-1, 5), Type_ := Logfeller,
           Writer := some (Writer.logfellerFile (exampleHandler "db.log")) },
         { LoggerName := str "data", LogRange := (InfoLevel, InfoLevel), Type_ := Logfeller,
           Writer := some (Writer.logfellerFile (exampleHandler "data.log")) }] := by
  decide

/-- C9: a document that omits the level range and decodes without error gives
`LogRange = [InfoLevel, InfoLevel]`, from JSON and from YAML. -/
theorem omitted_range_defaults (ext : External) (c : LogFileConfig) (doc : Document)
    (hr : doc.log_range = none) :
    ((UnmarshalJSON ext c doc).2 = none →
        (UnmarshalJSON ext c doc).1.LogRange = (InfoLevel, InfoLevel)) ∧
      ((UnmarshalYAML ext c doc).2 = none →
        (UnmarshalYAML ext c doc).1.LogRange = (InfoLevel, InfoLevel)) := by
  constructor
  · intro h
    obtain ⟨_, h2, _⟩ := UnmarshalJSON_ok ext c doc h
    rw [hr] at h2
    exact (Option.some.inj h2).symm
  · intro h
    obtain ⟨_, h2, _⟩ := UnmarshalYAML_ok ext c doc h
    rw [hr] at h2
    exact (Option.some.inj h2).symm

/-- C9 at the fourth example descriptor, which omits the range and decodes
without error from both formats. -/
theorem omitted_range_defaults_witness :
    ((UnmarshalJSON exampleExternal emptyLogFileConfig dataDoc).2 = none ∧
        (UnmarshalYAML exampleExternal emptyLogFileConfig dataDoc).2 = none) ∧
      (((UnmarshalJSON exampleExternal emptyLogFileConfig dataDoc).2 = none →
          (UnmarshalJSON exampleExternal emptyLogFileConfig dataDoc).1.LogRange =
            (InfoLevel, InfoLevel)) ∧
        ((UnmarshalYAML exampleExternal emptyLogFileConfig dataDoc).2 = none →
          (UnmarshalYAML exampleExternal emptyLogFileConfig dataDoc).1.LogRange =
            (InfoLevel, InfoLevel))) :=
  ⟨by decide, omitted_range_defaults exampleExternal emptyLogFileConfig dataDoc rfl⟩

/-- C10 as stated fails: a document without a type decodes without error, from
JSON and from YAML, into a descriptor whose writer was set by hand, and the
writer stays. -/
theorem preset_writer_NoWriter_succeeds :
    ¬ (∀ (ext : External) (c : LogFileConfig) (doc : Document), c.Writer ≠ none →
        (UnmarshalJSON ext c doc).2 ≠ none ∧ (UnmarshalYAML ext c doc).2 ≠ none) := by
  intro h
  have h1 := (h exampleExternal presetConf noTypeDoc (by decide)).1
  exact h1 (by decide)

/-- C10, amended: into a descriptor whose writer is already set, a document whose
kind tag is a text that decodes to `Lumberjack` or `Logfeller` fails to decode,
from JSON and from YAML. -/
theorem preset_writer_conflict (ext : External) (c : LogFileConfig) (doc : Document)
    (text : GoString) (hw : c.Writer ≠ none) (ht : doc.type_ = some (Raw.string text))
    (hk : textType ext text = some Lumberjack ∨ textType ext text = some Logfeller) :
    (UnmarshalJSON ext c doc).2 ≠ none ∧ (UnmarshalYAML ext c doc).2 ≠ none := by
  have hj : jsonType ext doc.type_ = textType ext text := by rw [ht]; rfl
  have hy : yamlType ext doc.type_ = textType ext text := by rw [ht]; rfl
  constructor
  · rcases jsonUnmarshalBase_cases ext doc with ⟨n, r, t, _, _, h3, hb⟩ | ⟨_, he⟩
    · rw [hj] at h3
      unfold UnmarshalJSON
      rw [hb]
      rcases hk with hk | hk
      · rw [hk] at h3
        have ht' : t = Lumberjack := (Option.some.inj h3).symm
        subst ht'
        simp [kinds_ne.1.symm, hw]
      · rw [hk] at h3
        have ht' : t = Logfeller := (Option.some.inj h3).symm
        subst ht'
        simp [kinds_ne.2.1.symm, kinds_ne.2.2.symm, hw]
    · rw [UnmarshalJSON_base_error ext c doc he]
      simp
  · rcases yamlUnmarshalBase_cases ext doc with ⟨n, r, t, _, _, h3, hb⟩ | ⟨_, he⟩
    · rw [hy] at h3
      unfold UnmarshalYAML
      rw [hb]
      rcases hk with hk | hk
      · rw [hk] at h3
        have ht' : t = Lumberjack := (Option.some.inj h3).symm
        subst ht'
        simp [kinds_ne.1.symm, hw]
      · rw [hk] at h3
        have ht' : t = Logfeller := (Option.some.inj h3).symm
        subst ht'
        simp [kinds_ne.2.1.symm, kinds_ne.2.2.symm, hw]
    · rw [UnmarshalYAML_base_error ext c doc he]
      simp

/-- C10, amended, at a descriptor whose writer was set by hand and the first
example document, of type `lf`. -/
theorem preset_writer_conflict_witness :
    (UnmarshalJSON exampleExternal presetConf infoDoc).2 ≠ none ∧
      (UnmarshalYAML exampleExternal presetConf infoDoc).2 ≠ none :=
  preset_writer_conflict exampleExternal presetConf infoDoc (str "lf") (by decide) rfl
    (Or.inr (by decide))

/-- The errors met on the way: with the writer set by hand, the first example
document fails with the error of a writer already set; a document of type `lf`
with an unknown level name fails with the library's error before the writer is
looked at; a document without type whose logger name is a number fails from
JSON with the library's error, and decodes from YAML, which takes the text of
the number as the name and keeps the writer. -/
theorem preset_writer_errors :
    UnmarshalJSON exampleExternal presetConf infoDoc =
        ({ presetConf with LogRange := (0, 5), Type_ := Logfeller },
          some (writerAlreadySet exampleExternal
            { presetConf with LogRange := (0, 5), Type_ := Logfeller })) ∧
      UnmarshalJSON exampleExternal presetConf badLevelDoc =
        (presetConf, some (str "json: cannot unmarshal")) ∧
      UnmarshalYAML exampleExternal presetConf badLevelDoc =
        (presetConf, some (str "yaml: unmarshal errors")) ∧
      UnmarshalJSON exampleExternal presetConf badNameDoc =
        (presetConf, some (str "json: cannot unmarshal")) ∧
      UnmarshalYAML exampleExternal presetConf badNameDoc =
        ({ presetConf with LoggerName := str "5" }, none) := by
  decide

/-! ## The fan-out -/

/-- Every core asks exactly its children, in order. -/
theorem Check_eq_checkAll_children (c : Core) (ent : Entry) (ce : CheckedEntry) :
    c.Check ent ce = Core.checkAll c.children ent ce := by
  cases c <;> simp [Core.Check, Core.checkAll, Core.children]

/-- Asking a concatenation of cores is asking the first part, then the second. -/
theorem checkAll_append (cs ds : List Core) (ent : Entry) (ce : CheckedEntry) :
    Core.checkAll (cs ++ ds) ent ce = Core.checkAll ds ent (Core.checkAll cs ent ce) := by
  induction cs generalizing ce with
  | nil => simp [Core.checkAll]
  | cons c rest ih => simp [Core.checkAll, ih]

/-- The two console cores add exactly one destination: standard output below
`Warn`, standard error from `Warn` on. -/
theorem checkAll_consoleCores (ent : Entry) (ce : CheckedEntry) :
    Core.checkAll consoleCores ent ce =
      ce ++ [if ent.Level < zapcore.WarnLevel then WriteSyncer.stdout else WriteSyncer.stderr] := by
  by_cases h : ent.Level < zapcore.WarnLevel
  · have h2 : ¬ ent.Level ≥ zapcore.WarnLevel := not_le.mpr h
    simp [consoleCores, Core.checkAll, Core.Check, h, h2]
  · have h2 : ent.Level ≥ zapcore.WarnLevel := not_lt.mp h
    simp [consoleCores, Core.checkAll, Core.Check, h, h2]

/-- A child core adds the writer of its descriptor or nothing. -/
theorem childCore_Check_cases (names : List GoString) (d : LogFileConfig) (w : Writer)
    (ent : Entry) (ce : CheckedEntry) :
    (childCore names d w).2.Check ent ce = ce ++ [WriteSyncer.file w] ∨
      (childCore names d w).2.Check ent ce = ce := by
  rw [childCore_Check]
  by_cases hc : (if d.LoggerName ≠ [] then ent.LoggerName = d.LoggerName
      else ent.LoggerName ∉ names) ∧ d.LogRange.1 ≤ ent.Level ∧ ent.Level ≤ d.LogRange.2
  · left; rw [if_pos hc]
  · right; rw [if_neg hc]

/-- The file cores of a list of descriptors add only writers of these
descriptors. -/
theorem checkAll_fileCores (names : List GoString) (ent : Entry) :
    ∀ (ds : List LogFileConfig) (ce : CheckedEntry) (out : WriteSyncer),
      out ∈ Core.checkAll
        (ds.filterMap (fun d => d.Writer.map (fun w => (childCore names d w).2))) ent ce →
      out ∈ ce ∨ ∃ d ∈ ds, ∃ w, d.Writer = some w ∧ out = WriteSyncer.file w := by
  intro ds
  induction ds with
  | nil => intro ce out h; left; simpa [Core.checkAll] using h
  | cons d rest ih =>
    intro ce out h
    cases hw : d.Writer with
    | none =>
      simp only [List.filterMap_cons, hw, Option.map_none'] at h
      rcases ih ce out h with h1 | ⟨x, hx, w, hxw, ho⟩
      · left; exact h1
      · right; exact ⟨x, List.mem_cons_of_mem _ hx, w, hxw, ho⟩
    | some w =>
      simp only [List.filterMap_cons, hw, Option.map_some', Core.checkAll] at h
      rcases ih _ out h with h1 | ⟨x, hx, w2, hxw, ho⟩
      · rcases childCore_Check_cases names d w ent ce with hc | hc
        · rw [hc] at h1
          rcases List.mem_append.1 h1 with h2 | h2
          · left; exact h2
          · right
            exact ⟨d, List.mem_cons_self _ _, w, hw, by simpa using h2⟩
        · rw [hc] at h1
          left; exact h1
      · right; exact ⟨x, List.mem_cons_of_mem _ hx, w2, hxw, ho⟩

/-- When `NewWithConfig` returns a logger, every range is in order, the logger
has no name yet, and its fan-out holds the console cores, if asked for, then
the child core of every descriptor with a writer, in configuration order. -/
theorem NewWithConfig_some (levelString : Level → GoString) (c : LogConfig) (l : Logger)
    (h : NewWithConfig levelString c = (some l, none)) :
    (∀ x ∈ c.LogFileConfigs, x.LogRange.1 ≤ x.LogRange.2) ∧ l.name = [] ∧
      l.core.children = (if c.ConsoleLog then consoleCores else []) ++
        c.LogFileConfigs.filterMap
          (fun d => d.Writer.map
            (fun w => (childCore (loggerNamesToExclude c.LogFileConfigs) d w).2)) := by
  have hEq := NewWithConfig_eq levelString c
  rw [h] at hEq
  by_cases hbad : (c.LogFileConfigs.filter badRange).length > 0
  · rw [if_pos hbad] at hEq
    exact absurd (congrArg Prod.fst hEq) (by simp)
  · rw [if_neg hbad] at hEq
    have hvalid : ∀ x ∈ c.LogFileConfigs, x.LogRange.1 ≤ x.LogRange.2 := by
      intro x hx
      by_contra hc
      apply hbad
      apply List.length_pos.2
      intro hnil
      have := (List.filter_eq_nil_iff.1 hnil) x hx
      apply this
      simp only [badRange, gt_iff_lt, decide_eq_true_eq]
      exact not_le.mp hc
    have hfm : c.LogFileConfigs.filterMap (fileCore (loggerNamesToExclude c.LogFileConfigs)) =
        c.LogFileConfigs.filterMap
          (fun d => d.Writer.map
            (fun w => (childCore (loggerNamesToExclude c.LogFileConfigs) d w).2)) := by
      apply List.filterMap_congr
      intro x hx
      have hb : badRange x = false := by
        have := hvalid x hx
        simp only [badRange, gt_iff_lt, decide_eq_false_iff_not, not_lt]
        exact this
      simp [fileCore, hb]
    have hl := Option.some.inj (congrArg Prod.fst hEq)
    refine ⟨hvalid, by rw [hl], ?_⟩
    rw [hl]
    simp only []
    rw [NewTee_children, hfm]
    intro x hx
    rcases List.mem_append.1 hx with h1 | h1
    · by_cases hc : c.ConsoleLog = true
      · rw [if_pos hc] at h1
        simp only [consoleCores, List.mem_cons, List.mem_singleton, List.not_mem_nil,
          or_false] at h1
        rcases h1 with h1 | h1 <;> (subst h1; rfl)
      · rw [if_neg hc] at h1
        exact absurd h1 (List.not_mem_nil _)
    · obtain ⟨y, _, hy⟩ := List.mem_filterMap.1 h1
      exact fileCore_isLeaf _ y x hy

/-- On a configuration whose ranges are all in order `NewWithConfig` returns a
logger and no error. -/
theorem NewWithConfig_returns (levelString : Level → GoString) (c : LogConfig)
    (hvalid : ∀ x ∈ c.LogFileConfigs, x.LogRange.1 ≤ x.LogRange.2) :
    ∃ l, NewWithConfig levelString c = (some l, none) := by
  have hnone : c.LogFileConfigs.filter badRange = [] := by
    rw [List.filter_eq_nil_iff]
    intro x hx
    have := hvalid x hx
    simp only [badRange, gt_iff_lt, decide_eq_true_eq, not_lt]
    exact this
  have hEq := NewWithConfig_eq levelString c
  rw [hnone] at hEq
  simp only [List.length_nil, gt_iff_lt, lt_self_iff_false, if_false] at hEq
  exact ⟨_, hEq⟩

/-- C11: in a configuration whose ranges are all in order `NewWithConfig` returns
a logger whose fan-out holds the two console cores iff `ConsoleLog` is set,
followed by exactly one file core per descriptor with a writer, in
configuration order; a descriptor with a nil writer contributes no core, and
every destination a record reaches is a console stream or the writer of a
descriptor that has one. -/
theorem fanout_one_core_per_writer (levelString : Level → GoString) (c : LogConfig)
    (hvalid : ∀ x ∈ c.LogFileConfigs, x.LogRange.1 ≤ x.LogRange.2) :
    ∃ l, NewWithConfig levelString c = (some l, none) ∧
      l.core.children = (if c.ConsoleLog then consoleCores else []) ++
        c.LogFileConfigs.filterMap
          (fun d => d.Writer.map
            (fun w => (childCore (loggerNamesToExclude c.LogFileConfigs) d w).2)) ∧
      consoleCores.length = 2 ∧
      ∀ (ent : Entry) (out : WriteSyncer), out ∈ l.core.Check ent [] →
        out = WriteSyncer.stdout ∨ out = WriteSyncer.stderr ∨
          ∃ d ∈ c.LogFileConfigs, ∃ w, d.Writer = some w ∧ out = WriteSyncer.file w := by
  obtain ⟨l, hEq⟩ := NewWithConfig_returns levelString c hvalid
  obtain ⟨_, _, hch⟩ := NewWithConfig_some levelString c l hEq
  refine ⟨l, hEq, hch, rfl, ?_⟩
  intro ent out hout
  rw [Check_eq_checkAll_children, hch, checkAll_append] at hout
  rcases checkAll_fileCores _ ent _ _ out hout with h1 | h1
  · by_cases hc : c.ConsoleLog = true
    · rw [if_pos hc, checkAll_consoleCores] at h1
      simp only [List.nil_append, List.mem_singleton] at h1
      by_cases hl : ent.Level < zapcore.WarnLevel
      · rw [if_pos hl] at h1; left; exact h1
      · rw [if_neg hl] at h1; right; left; exact h1
    · rw [if_neg hc] at h1
      simp [Core.checkAll] at h1
  · right; right; exact h1

/-- C11 at the example configuration. -/
theorem fanout_one_core_per_writer_witness :
    ∃ l, NewWithConfig exampleLevelString exampleConfig = (some l, none) ∧
      l.core.children = (if exampleConfig.ConsoleLog then consoleCores else []) ++
        exampleConfig.LogFileConfigs.filterMap
          (fun d => d.Writer.map
            (fun w => (childCore (loggerNamesToExclude exampleConfig.LogFileConfigs) d w).2)) ∧
      consoleCores.length = 2 ∧
      ∀ (ent : Entry) (out : WriteSyncer), out ∈ l.core.Check ent [] →
        out = WriteSyncer.stdout ∨ out = WriteSyncer.stderr ∨
          ∃ d ∈ exampleConfig.LogFileConfigs, ∃ w, d.Writer = some w ∧
            out = WriteSyncer.file w :=
  fanout_one_core_per_writer exampleLevelString exampleConfig (by decide)

/-- C12: the standard-output gate accepts a level iff it is strictly below
`Warn`, the standard-error gate iff it is `Warn` or above, so every level is
accepted by exactly one of them; with `ConsoleLog` set the fan-out starts with
the two console cores over these gates, and without it no core is built for a
console stream and no record reaches one. -/
theorem console_gates (levelString : Level → GoString) (c : LogConfig)
    (hvalid : ∀ x ∈ c.LogFileConfigs, x.LogRange.1 ≤ x.LogRange.2) :
    (∀ lvl : Level, (stdoutPriority lvl = true ↔ lvl < zapcore.WarnLevel) ∧
        (stdErrPriority lvl = true ↔ lvl ≥ zapcore.WarnLevel) ∧
        (stdoutPriority lvl = true ↔ ¬ stdErrPriority lvl = true)) ∧
      ∃ l, NewWithConfig levelString c = (some l, none) ∧
        (c.ConsoleLog = true →
          l.core.children =
            [Core.ioCore true WriteSyncer.stdout stdoutPriority [],
             Core.ioCore true WriteSyncer.stderr stdErrPriority []] ++
            c.LogFileConfigs.filterMap
              (fun d => d.Writer.map
                (fun w => (childCore (loggerNamesToExclude c.LogFileConfigs) d w).2))) ∧
        (c.ConsoleLog = false →
          l.core.children =
            c.LogFileConfigs.filterMap
              (fun d => d.Writer.map
                (fun w => (childCore (loggerNamesToExclude c.LogFileConfigs) d w).2)) ∧
          ∀ ent : Entry, WriteSyncer.stdout ∉ l.core.Check ent [] ∧
            WriteSyncer.stderr ∉ l.core.Check ent []) := by
  constructor
  · intro lvl
    refine ⟨by simp [stdoutPriority], by simp [stdErrPriority], ?_⟩
    simp only [stdoutPriority, stdErrPriority, decide_eq_true_eq, ge_iff_le, not_le]
  · obtain ⟨l, hEq⟩ := NewWithConfig_returns levelString c hvalid
    obtain ⟨_, _, hch⟩ := NewWithConfig_some levelString c l hEq
    refine ⟨l, hEq, ?_, ?_⟩
    · intro hc
      rw [hch, if_pos hc]
      rfl
    · intro hc
      have hc' : ¬ c.ConsoleLog = true := by simp [hc]
      rw [if_neg hc', List.nil_append] at hch
      refine ⟨hch, ?_⟩
      intro ent
      constructor
      · intro hout
        rw [Check_eq_checkAll_children, hch] at hout
        rcases checkAll_fileCores _ ent _ _ _ hout with h1 | ⟨_, _, _, _, h1⟩
        · exact absurd h1 (List.not_mem_nil _)
        · exact absurd h1 (by simp)
      · intro hout
        rw [Check_eq_checkAll_children, hch] at hout
        rcases checkAll_fileCores _ ent _ _ _ hout with h1 | ⟨_, _, _, _, h1⟩
        · exact absurd h1 (List.not_mem_nil _)
        · exact absurd h1 (by simp)

/-- C12 at the example configuration, whose `ConsoleLog` is set. -/
theorem console_gates_witness :
    (∀ lvl : Level, (stdoutPriority lvl = true ↔ lvl < zapcore.WarnLevel) ∧
        (stdErrPriority lvl = true ↔ lvl ≥ zapcore.WarnLevel) ∧
        (stdoutPriority lvl = true ↔ ¬ stdErrPriority lvl = true)) ∧
      ∃ l, NewWithConfig exampleLevelString exampleConfig = (some l, none) ∧
        (exampleConfig.ConsoleLog = true →
          l.core.children =
            [Core.ioCore true WriteSyncer.stdout stdoutPriority [],
             Core.ioCore true WriteSyncer.stderr stdErrPriority []] ++
            exampleConfig.LogFileConfigs.filterMap
              (fun d => d.Writer.map
                (fun w =>
                  (childCore (loggerNamesToExclude exampleConfig.LogFileConfigs) d w).2))) ∧
        (exampleConfig.ConsoleLog = false →
          l.core.children =
            exampleConfig.LogFileConfigs.filterMap
              (fun d => d.Writer.map
                (fun w =>
                  (childCore (loggerNamesToExclude exampleConfig.LogFileConfigs) d w).2)) ∧
          ∀ ent : Entry, WriteSyncer.stdout ∉ l.core.Check ent [] ∧
            WriteSyncer.stderr ∉ l.core.Check ent []) :=
  console_gates exampleLevelString exampleConfig (by decide)

/-! ## Calls on an absent logger -/

/-- C13: on a nil `*Logger` each of `Debug`, `Debugf`, `Info`, `Infof`, `Warn`,
`Warnf`, `Error` and `Errorf` returns and writes nothing, while `Panicf` panics
with `fmt.Sprintf(template, args...)` and `Panic` with `fmt.Sprintln` of the
message followed by the key-value arguments, nothing written either. -/
theorem nil_logger_calls (fmt : Fmt) (msg template : GoString)
    (keysAndValues args : List Any) :
    Logger.Debug none msg keysAndValues = Outcome.returned [] ∧
      Logger.Debugf fmt none template args = Outcome.returned [] ∧
      Logger.Info none msg keysAndValues = Outcome.returned [] ∧
      Logger.Infof fmt none template args = Outcome.returned [] ∧
      Logger.Warn none msg keysAndValues = Outcome.returned [] ∧
      Logger.Warnf fmt none template args = Outcome.returned [] ∧
      Logger.Error none msg keysAndValues = Outcome.returned [] ∧
      Logger.Errorf fmt none template args = Outcome.returned [] ∧
      Logger.Panicf fmt none template args =
        Outcome.panicked [] (fmt.Sprintf template args) ∧
      Logger.Panic fmt none msg keysAndValues =
        Outcome.panicked [] (fmt.Sprintln (Any.string msg :: keysAndValues)) :=
  ⟨rfl, rfl, rfl, rfl, rfl, rfl, rfl, rfl, rfl, rfl⟩

/-! ## The text of a kind -/

/-- C14 fails at `NoWriter`: `LogFileType.String` returns `noWriter`, whose third
byte is the upper-case letter `W`; the texts of `Lumberjack` and `Logfeller`
are made of lower-case ASCII letters only. -/
theorem String_NoWriter_has_upper_case :
    LogFileType.String NoWriter = str "noWriter" ∧
      (LogFileType.String NoWriter).get? 2 = some 87 ∧
      isLowerASCII (LogFileType.String NoWriter) = false ∧
      isLowerASCII (LogFileType.String Lumberjack) = true ∧
      isLowerASCII (LogFileType.String Logfeller) = true := by
  decide

/-! ## The default logger -/

/-- C16: after `SetDefault(l)` the call `Get()` returns `l`, after several
`SetDefault` calls the most recent argument; before any `SetDefault` call it
returns the logger built by `NewConsole`, which is not nil and whose fan-out is
the two console cores alone. -/
theorem Get_returns_last_SetDefault (levelString : Level → GoString) (l : ifaceLogger)
    (s : logiState) (ls : List ifaceLogger) :
    Get (SetDefault l s) = l ∧
      Get ((ls ++ [l]).foldl (fun st x => SetDefault x st) s) = l ∧
      Get (logiInit levelString) = ifaceLogger.zap (NewConsole levelString) ∧
      ∃ lg, NewConsole levelString = some lg ∧ lg.core.children = consoleCores := by
  refine ⟨rfl, ?_, rfl, ?_⟩
  · rw [List.foldl_append]
    rfl
  · exact ⟨_, rfl, rfl⟩

/-! ## The name filter as a sorted-set lookup -/

/-- The decision of `exclusiveCore.Check` is `checkCond`. -/
theorem exclusiveCore_Check_eq (loggerNames : List GoString) (incl : Bool) (inner : Core)
    (ent : Entry) (ce : CheckedEntry) :
    (Core.exclusiveCore loggerNames incl inner).Check ent ce =
      if checkCond loggerNames incl ent then inner.Check ent ce else ce := by
  simp only [Core.Check, checkCond]

/-- On a sorted slice the decision of `exclusiveCore.Check` is membership
compared with the include flag. -/
theorem checkCond_sorted (loggerNames : List GoString) (incl : Bool) (ent : Entry)
    (hs : loggerNames.Sorted (fun x y => x ≤ y)) :
    checkCond loggerNames incl ent = nameFilterSpec loggerNames incl ent := by
  have h := searchStrings_mem loggerNames ent.LoggerName hs
  simp only [checkCond, nameFilterSpec]
  rw [h]
  cases incl <;> cases decide (ent.LoggerName ∈ loggerNames) <;> rfl

/-- C17: for every list of names given to `newExclusiveCore`, in any order, with
or without duplicates, every include flag and every entry, `exclusiveCore.Check`
asks the inner core iff membership of the entry's logger name in the list
equals the include flag, and otherwise returns the checked entry it was given:
sorting once and searching by bisection agrees with plain membership. -/
theorem exclusiveCore_Check_refines_membership (names : List GoString) (incl : Bool)
    (inner : Core) (ent : Entry) (ce : CheckedEntry) :
    (newExclusiveCore names incl inner).2 =
        Core.exclusiveCore (sortStrings names) incl inner ∧
      checkCond (sortStrings names) incl ent = nameFilterSpec names incl ent ∧
      (newExclusiveCore names incl inner).2.Check ent ce =
        (if nameFilterSpec names incl ent then inner.Check ent ce else ce) ∧
      (nameFilterSpec names incl ent = true ↔ ((ent.LoggerName ∈ names) ↔ incl = true)) := by
  have hmem : decide (ent.LoggerName ∈ sortStrings names) = decide (ent.LoggerName ∈ names) := by
    by_cases hm : ent.LoggerName ∈ names
    · rw [decide_eq_true hm, decide_eq_true ((mem_sortStrings names _).2 hm)]
    · rw [decide_eq_false hm,
        decide_eq_false (fun h => hm ((mem_sortStrings names _).1 h))]
  have hc : checkCond (sortStrings names) incl ent = nameFilterSpec names incl ent := by
    rw [checkCond_sorted _ _ _ (sortStrings_sorted names)]
    simp only [nameFilterSpec, hmem]
  refine ⟨rfl, hc, ?_, ?_⟩
  · show (Core.exclusiveCore (sortStrings names) incl inner).Check ent ce = _
    rw [exclusiveCore_Check_eq, hc]
  · by_cases hm : ent.LoggerName ∈ names <;> cases incl <;> simp [nameFilterSpec, hm]

/-- C18: `exclusiveCore.With` keeps the names and the include flag and derives
only the inner core; the names of a core made by `newExclusiveCore` are still
sorted, and the derived core takes the same name-filter decision as the
original on every entry. -/
theorem exclusiveCore_With_keeps_filter (loggerNames names : List GoString) (incl : Bool)
    (inner : Core) (fs : List Field) (ent : Entry) (ce : CheckedEntry) :
    (Core.exclusiveCore loggerNames incl inner).With fs =
        Core.exclusiveCore loggerNames incl (inner.With fs) ∧
      ((newExclusiveCore names incl inner).2.With fs =
          Core.exclusiveCore (sortStrings names) incl (inner.With fs) ∧
        (sortStrings names).Sorted (fun x y => x ≤ y)) ∧
      (Core.exclusiveCore loggerNames incl inner).Check ent ce =
        (if checkCond loggerNames incl ent then inner.Check ent ce else ce) ∧
      ((Core.exclusiveCore loggerNames incl inner).With fs).Check ent ce =
        (if checkCond loggerNames incl ent then (inner.With fs).Check ent ce else ce) := by
  refine ⟨?_, ⟨?_, sortStrings_sorted names⟩, exclusiveCore_Check_eq _ _ _ _ _, ?_⟩
  · simp only [Core.With]
  · simp only [newExclusiveCore, Core.With]
  · simp only [Core.With]
    exact exclusiveCore_Check_eq _ _ _ _ _

/-! ## Derived loggers -/

/-- Allocation at the end of the store leaves every logger already there as it
was. -/
theorem store_append_old (h : Store) (x : Logger) (q : Nat) (hq : q < h.length) :
    (h ++ [x])[q]? = h[q]? :=
  List.getElem?_append_left hq

/-- C15: for a non-nil logger `l`, `Named` and `With` return a pointer to a
newly allocated logger, different from `l`, and leave every logger already
allocated as it was, `l` included: its name, context and fan-out are the same
after the call, so a record emitted through `l` reaches the same destinations
before and after. -/
theorem derivation_leaves_parent (fmt : Fmt) (h : Store) (l : Nat) (lg : Logger)
    (loggerName : GoString) (args : List Any) (hl : h[l]? = some lg) :
    (∃ h1 p, Logger.Named h l loggerName = some (h1, p) ∧ p ≠ l ∧ h[p]? = none ∧
        h1[p]? = some (zapNamed lg loggerName) ∧ h1[l]? = some lg ∧
        (∀ q, q < h.length → h1[q]? = h[q]?) ∧
        (∀ lg1, h1[l]? = some lg1 → ∀ lvl msg, zapLog lg1 lvl msg = zapLog lg lvl msg)) ∧
      (∃ h1 p, Logger.With fmt h l args = some (h1, p) ∧ p ≠ l ∧ h[p]? = none ∧
        h1[p]? = some (zapWith lg (fmt.sweetenFields args)) ∧ h1[l]? = some lg ∧
        (∀ q, q < h.length → h1[q]? = h[q]?) ∧
        (∀ lg1, h1[l]? = some lg1 → ∀ lvl msg, zapLog lg1 lvl msg = zapLog lg lvl msg)) := by
  have hlt : l < h.length := by
    by_contra hc
    have hn : h[l]? = none := List.getElem?_eq_none (by omega)
    rw [hn] at hl
    exact absurd hl (by simp)
  have hfresh : h[h.length]? = none := List.getElem?_eq_none (le_refl _)
  have hkeep : ∀ x : Logger, (h ++ [x])[l]? = some lg := by
    intro x
    rw [store_append_old h x l hlt, hl]
  have hnew : ∀ x : Logger, (h ++ [x])[h.length]? = some x := by
    intro x
    simp
  constructor
  · refine ⟨h ++ [zapNamed lg loggerName], h.length, ?_, by omega, hfresh, hnew _, hkeep _,
      fun q hq => store_append_old h _ q hq, ?_⟩
    · simp [Logger.Named, hl]
    · intro lg1 h1 lvl msg
      rw [hkeep] at h1
      rw [← Option.some.inj h1]
  · refine ⟨h ++ [zapWith lg (fmt.sweetenFields args)], h.length, ?_, by omega, hfresh, hnew _,
      hkeep _, fun q hq => store_append_old h _ q hq, ?_⟩
    · simp [Logger.With, hl]
    · intro lg1 h1 lvl msg
      rw [hkeep] at h1
      rw [← Option.some.inj h1]

/-- C15 at a store holding the console logger alone, deriving the logger `db`
and a logger with one field. -/
theorem derivation_leaves_parent_witness :
    (∃ h1 p, Logger.Named [consoleLogger] 0 (str "db") = some (h1, p) ∧ p ≠ 0 ∧
        [consoleLogger][p]? = none ∧
        h1[p]? = some (zapNamed consoleLogger (str "db")) ∧ h1[0]? = some consoleLogger ∧
        (∀ q, q < [consoleLogger].length → h1[q]? = [consoleLogger][q]?) ∧
        (∀ lg1, h1[0]? = some lg1 →
          ∀ lvl msg, zapLog lg1 lvl msg = zapLog consoleLogger lvl msg)) ∧
      (∃ h1 p, Logger.With exampleFmt [consoleLogger] 0
            [Any.string (str "k"), Any.string (str "v")] = some (h1, p) ∧ p ≠ 0 ∧
        [consoleLogger][p]? = none ∧
        h1[p]? = some (zapWith consoleLogger
          (exampleFmt.sweetenFields [Any.string (str "k"), Any.string (str "v")])) ∧
        h1[0]? = some consoleLogger ∧
        (∀ q, q < [consoleLogger].length → h1[q]? = [consoleLogger][q]?) ∧
        (∀ lg1, h1[0]? = some lg1 →
          ∀ lvl msg, zapLog lg1 lvl msg = zapLog consoleLogger lvl msg)) :=
  derivation_leaves_parent exampleFmt [consoleLogger] 0 consoleLogger (str "db")
    [Any.string (str "k"), Any.string (str "v")] rfl

/-! ## Records without a name, and names without a writer -/

/-- The exclusion list never holds the empty name. -/
theorem nil_not_mem_loggerNamesToExclude (ds : List LogFileConfig) :
    ([] : GoString) ∉ loggerNamesToExclude ds := by
  intro h
  obtain ⟨d, _, hn, he⟩ := (mem_loggerNamesToExclude ds []).1 h
  exact hn he.symm

/-- File cores that all reject an entry leave the checked entry as it was. -/
theorem checkAll_fileCores_reject (names : List GoString) (ent : Entry) :
    ∀ (ds : List LogFileConfig),
      (∀ d ∈ ds, ∀ w, d.Writer = some w →
        ∀ ce, (childCore names d w).2.Check ent ce = ce) →
      ∀ ce, Core.checkAll
        (ds.filterMap (fun d => d.Writer.map (fun w => (childCore names d w).2))) ent ce = ce := by
  intro ds
  induction ds with
  | nil => intro _ ce; simp [Core.checkAll]
  | cons d rest ih =>
    intro hall ce
    have hrest := ih (fun x hx => hall x (List.mem_cons_of_mem _ hx))
    cases hw : d.Writer with
    | none =>
      simp only [List.filterMap_cons, hw, Option.map_none']
      exact hrest ce
    | some w =>
      simp only [List.filterMap_cons, hw, Option.map_some', Core.checkAll]
      rw [hall d (List.mem_cons_self _ _) w hw ce]
      exact hrest ce

/-- C19: in a configuration whose ranges are all in order the exclusion list
does not hold the empty name and the logger returned has no name; for a record
with the empty logger name, the core of a catch-all descriptor with a writer
admits it when its level is in the descriptor's range, and the core of a named
descriptor with a writer rejects it. -/
theorem empty_name_routing (levelString : Level → GoString) (c : LogConfig)
    (d : LogFileConfig) (w : Writer) (lvl : Level) (msg : GoString) (ce : CheckedEntry)
    (hvalid : ∀ x ∈ c.LogFileConfigs, x.LogRange.1 ≤ x.LogRange.2)
    (hd : d ∈ c.LogFileConfigs) (hw : d.Writer = some w) :
    ([] : GoString) ∉ loggerNamesToExclude c.LogFileConfigs ∧
      ∃ l core, NewWithConfig levelString c = (some l, none) ∧ l.name = [] ∧
        core = (childCore (loggerNamesToExclude c.LogFileConfigs) d w).2 ∧
        core ∈ l.core.children ∧
        (d.LoggerName = [] → d.LogRange.1 ≤ lvl ∧ lvl ≤ d.LogRange.2 →
          core.Check { Level := lvl, LoggerName := [], Message := msg } ce =
            ce ++ [WriteSyncer.file w]) ∧
        (d.LoggerName ≠ [] →
          core.Check { Level := lvl, LoggerName := [], Message := msg } ce = ce) := by
  have hnil := nil_not_mem_loggerNamesToExclude c.LogFileConfigs
  obtain ⟨l, hl, hmem⟩ := NewWithConfig_valid levelString c d w hvalid hd hw
  obtain ⟨_, hname, _⟩ := NewWithConfig_some levelString c l hl
  refine ⟨hnil, l, _, hl, hname, rfl, hmem, ?_, ?_⟩
  · intro hn hr
    rw [childCore_Check]
    simp [hn, hnil, hr]
  · intro hn
    rw [childCore_Check]
    have hne : ([] : GoString) ≠ d.LoggerName := fun h => hn h.symm
    simp [hn, hne]

/-- C19 at the example configuration and its first catch-all descriptor. -/
theorem empty_name_routing_witness :
    ([] : GoString) ∉ loggerNamesToExclude exampleConfig.LogFileConfigs ∧
      ∃ l core, NewWithConfig exampleLevelString exampleConfig = (some l, none) ∧ l.name = [] ∧
        core = (childCore (loggerNamesToExclude exampleConfig.LogFileConfigs) infoConf
          (exampleFile "info.log")).2 ∧
        core ∈ l.core.children ∧
        (infoConf.LoggerName = [] → infoConf.LogRange.1 ≤ (2 : Level) ∧
            (2 : Level) ≤ infoConf.LogRange.2 →
          core.Check { Level := 2, LoggerName := [], Message := str "boom" } [] =
            [] ++ [WriteSyncer.file (exampleFile "info.log")]) ∧
        (infoConf.LoggerName ≠ [] →
          core.Check { Level := 2, LoggerName := [], Message := str "boom" } [] = []) :=
  empty_name_routing exampleLevelString exampleConfig infoConf (exampleFile "info.log") 2
    (str "boom") [] (by decide) (by decide) rfl

/-- C20: the exclusion list holds every non-empty logger name of the
configuration, whether or not its descriptor has a writer; in a configuration
whose ranges are all in order, a record named `N`, where `N` is the name of
some descriptor and every descriptor named `N` has a nil writer, is admitted by
no file core, whatever its level, and reaches console streams only. -/
theorem nil_writer_name_reaches_no_file (levelString : Level → GoString) (c : LogConfig)
    (N : GoString) (ent : Entry)
    (hvalid : ∀ x ∈ c.LogFileConfigs, x.LogRange.1 ≤ x.LogRange.2)
    (hcarried : ∃ d ∈ c.LogFileConfigs, d.LoggerName = N)
    (honly : ∀ d ∈ c.LogFileConfigs, d.LoggerName = N → d.Writer = none)
    (hent : ent.LoggerName = N) :
    (∀ d ∈ c.LogFileConfigs, d.LoggerName ≠ [] →
        d.LoggerName ∈ loggerNamesToExclude c.LogFileConfigs) ∧
      ∃ l, NewWithConfig levelString c = (some l, none) ∧
        (∀ d ∈ c.LogFileConfigs, ∀ w, d.Writer = some w → ∀ ce,
          (childCore (loggerNamesToExclude c.LogFileConfigs) d w).2.Check ent ce = ce) ∧
        (∀ out ∈ l.core.Check ent [],
          out = WriteSyncer.stdout ∨ out = WriteSyncer.stderr) := by
  have hlist : ∀ d ∈ c.LogFileConfigs, d.LoggerName ≠ [] →
      d.LoggerName ∈ loggerNamesToExclude c.LogFileConfigs :=
    fun d hd hn => (mem_loggerNamesToExclude _ _).2 ⟨d, hd, hn, rfl⟩
  have hrej : ∀ d ∈ c.LogFileConfigs, ∀ w, d.Writer = some w → ∀ ce,
      (childCore (loggerNamesToExclude c.LogFileConfigs) d w).2.Check ent ce = ce := by
    intro d hd w hw ce
    have hdN : d.LoggerName ≠ N := by
      intro h
      rw [honly d hd h] at hw
      exact absurd hw (by simp)
    rw [childCore_Check]
    by_cases hn : d.LoggerName ≠ []
    · have hne : ent.LoggerName ≠ d.LoggerName := by
        rw [hent]; exact fun h => hdN h.symm
      simp [hn, hne]
    · have hn' : d.LoggerName = [] := by simpa using hn
      have hNne : N ≠ [] := by
        intro h
        exact hdN (by rw [hn', h])
      obtain ⟨x, hx, hxN⟩ := hcarried
      have hin : ent.LoggerName ∈ loggerNamesToExclude c.LogFileConfigs := by
        rw [hent]
        exact (mem_loggerNamesToExclude _ _).2 ⟨x, hx, by rw [hxN]; exact hNne, hxN.symm⟩
      simp [hn', hin]
  obtain ⟨l, hl⟩ := NewWithConfig_returns levelString c hvalid
  obtain ⟨_, _, hch⟩ := NewWithConfig_some levelString c l hl
  refine ⟨hlist, l, hl, hrej, ?_⟩
  intro out hout
  rw [Check_eq_checkAll_children, hch, checkAll_append,
    checkAll_fileCores_reject _ ent _ hrej] at hout
  by_cases hc : c.ConsoleLog = true
  · rw [if_pos hc, checkAll_consoleCores] at hout
    simp only [List.nil_append, List.mem_singleton] at hout
    by_cases hlv : ent.Level < zapcore.WarnLevel
    · rw [if_pos hlv] at hout; left; exact hout
    · rw [if_neg hlv] at hout; right; exact hout
  · rw [if_neg hc] at hout
    simp [Core.checkAll] at hout

/-- C20 at a configuration where `audit` is the name of a descriptor without
writer only, and an error record of the logger `audit`. -/
theorem nil_writer_name_reaches_no_file_witness :
    (∀ d ∈ auditConfig.LogFileConfigs, d.LoggerName ≠ [] →
        d.LoggerName ∈ loggerNamesToExclude auditConfig.LogFileConfigs) ∧
      ∃ l, NewWithConfig exampleLevelString auditConfig = (some l, none) ∧
        (∀ d ∈ auditConfig.LogFileConfigs, ∀ w, d.Writer = some w → ∀ ce,
          (childCore (loggerNamesToExclude auditConfig.LogFileConfigs) d w).2.Check
            { Level := 2, LoggerName := str "audit", Message := [] } ce = ce) ∧
        (∀ out ∈ l.core.Check { Level := 2, LoggerName := str "audit", Message := [] } [],
          out = WriteSyncer.stdout ∨ out = WriteSyncer.stderr) :=
  nil_writer_name_reaches_no_file exampleLevelString auditConfig (str "audit")
    { Level := 2, LoggerName := str "audit", Message := [] } (by decide) (by decide)
    (by decide) rfl

/-- The fan-out of that configuration at work: the error record of `audit`
reaches standard error alone, the same record of an unclaimed logger reaches
the catch-all file too. -/
theorem audit_fanout :
    (NewWithConfig exampleLevelString auditConfig).1.map
        (fun l => (l.core.Check { Level := 2, LoggerName := str "audit", Message := [] } [],
          l.core.Check { Level := 2, LoggerName := str "web", Message := [] } [])) =
      some ([WriteSyncer.stderr],
        [WriteSyncer.stderr, WriteSyncer.file (exampleFile "info.log")]) := by
  decide

/-! ## Round trip of the kind, and the constructors that drop the error -/

/-- C21 fails at `NoWriter`: `MarshalText` gives `noWriter`, which
`UnmarshalText` does not recognise, as it is or lower-cased, so it returns an
error and leaves the target as it was; `Lumberjack` and `Logfeller` do come
back from their texts. -/
theorem MarshalText_NoWriter_not_unmarshalled (U : GoString → GoString) (v : LogFileType) :
    (LogFileType.MarshalText NoWriter) = (str "noWriter", none) ∧
      UnmarshalText U (some v) (LogFileType.MarshalText NoWriter).1 =
        (some v, some (str "unrecognised LogFileType: " ++ quote (str "noWriter"))) ∧
      UnmarshalText U (some v) (LogFileType.MarshalText Lumberjack).1 =
        (some Lumberjack, none) ∧
      UnmarshalText U (some v) (LogFileType.MarshalText Logfeller).1 =
        (some Logfeller, none) :=
  ⟨rfl, rfl, rfl, rfl⟩

/-- The configuration of `NewDefault` has its ranges in order when `InfoLevel`
and `WarnLevel` are at most `MaxLevel`. -/
theorem newDefaultConfig_valid (WarnLevel MaxLevel : Level)
    (join : GoString → GoString → GoString) (itoa : Int → GoString) (logDir : GoString)
    (backups : Int) (logConsole : Bool)
    (hinfo : InfoLevel ≤ MaxLevel) (hwarn : WarnLevel ≤ MaxLevel) :
    ∀ x ∈ (newDefaultConfig WarnLevel MaxLevel join itoa logDir backups
      logConsole).LogFileConfigs, x.LogRange.1 ≤ x.LogRange.2 := by
  intro x hx
  simp only [newDefaultConfig, List.mem_cons, List.mem_singleton, List.not_mem_nil,
    or_false] at hx
  rcases hx with hx | hx
  · rw [hx]; exact hinfo
  · rw [hx]; exact hwarn

/-- C22: `NewConsole` never returns nil, and given `InfoLevel <= MaxLevel` and
`WarnLevel <= MaxLevel`, `NewDefault` never returns nil for any directory,
number of backups and console flag; the errors they drop are nil, as neither
configuration has a descriptor with `low > high`. -/
theorem constructors_never_nil (levelString : Level → GoString) (WarnLevel MaxLevel : Level)
    (join : GoString → GoString → GoString) (itoa : Int → GoString) (logDir : GoString)
    (backups : Int) (logConsole : Bool)
    (hinfo : InfoLevel ≤ MaxLevel) (hwarn : WarnLevel ≤ MaxLevel) :
    NewConsole levelString ≠ none ∧
      (NewWithConfig levelString
        { ConsoleLog := true, RootCallerSkip := 1, LogFileConfigs := [] }).2 = none ∧
      NewDefault levelString WarnLevel MaxLevel join itoa logDir backups logConsole ≠ none ∧
      (NewWithConfig levelString
        (newDefaultConfig WarnLevel MaxLevel join itoa logDir backups logConsole)).2 = none ∧
      (newDefaultConfig WarnLevel MaxLevel join itoa logDir backups
        logConsole).LogFileConfigs.filter badRange = [] := by
  obtain ⟨l, hl⟩ := NewWithConfig_returns levelString
    (newDefaultConfig WarnLevel MaxLevel join itoa logDir backups logConsole)
    (newDefaultConfig_valid WarnLevel MaxLevel join itoa logDir backups logConsole hinfo hwarn)
  refine ⟨?_, rfl, ?_, ?_, ?_⟩
  · exact fun h => absurd h (by simp [NewConsole, NewWithConfig, buildLoop])
  · unfold NewDefault
    rw [hl]
    simp
  · rw [hl]
  · rw [List.filter_eq_nil_iff]
    intro x hx
    have := newDefaultConfig_valid WarnLevel MaxLevel join itoa logDir backups logConsole
      hinfo hwarn x hx
    simp only [badRange, gt_iff_lt, decide_eq_true_eq, not_lt]
    exact this

/-- C22 with zap's numbering of the levels (`Warn` is 1, the maximum 5), the
directory `logs` and 30 backups. -/
theorem constructors_never_nil_witness :
    NewConsole exampleLevelString ≠ none ∧
      (NewWithConfig exampleLevelString
        { ConsoleLog := true, RootCallerSkip := 1, LogFileConfigs := [] }).2 = none ∧
      NewDefault exampleLevelString 1 5 exampleJoin exampleItoa (str "logs") 30 false ≠ none ∧
      (NewWithConfig exampleLevelString
        (newDefaultConfig 1 5 exampleJoin exampleItoa (str "logs") 30 false)).2 = none ∧
      (newDefaultConfig 1 5 exampleJoin exampleItoa (str "logs") 30
        false).LogFileConfigs.filter badRange = [] :=
  constructors_never_nil exampleLevelString 1 5 exampleJoin exampleItoa (str "logs") 30 false
    (by decide) (by decide)

/-- The logger of `NewDefault` at work, console off: a warning reaches both
files, an info record the first alone, a debug record none. -/
theorem NewDefault_fanout :
    (NewDefault exampleLevelString 1 5 exampleJoin exampleItoa (str "logs") 30 false).map
        (fun l => (l.core.Check { Level := 1, LoggerName := [], Message := [] } [],
          l.core.Check { Level := 0, LoggerName := [], Message := [] } [],
          l.core.Check { Level := -1, LoggerName := [], Message := [] } [])) =
      some ([WriteSyncer.file (defaultFile exampleJoin exampleItoa (str "logs") "info.log" 30),
          WriteSyncer.file (defaultFile exampleJoin exampleItoa (str "logs") "error.log" 30)],
        [WriteSyncer.file (defaultFile exampleJoin exampleItoa (str "logs") "info.log" 30)],
        []) := by
  decide

end zaplogi
